import Mathlib

/-!
Verification development for the DeepChat streaming LLM protocol gateway
(`src/main/presenter/anthropicApiPresenter` and
`src/main/presenter/llmProviderPresenter`).

The TypeScript sources are shallowly embedded: classes become structures with
explicit state passing, JavaScript `Map`s become insertion-ordered association
lists, JavaScript string/number truthiness is made explicit, and the SSE wire
output is modelled as lists of structured wire events (the `formatSSE`
serialization layer is a fixed injective framing of these events, so the
claims about which events are emitted are stated on the event lists).
-/

namespace DeepChat

/-! ## JavaScript semantics helpers -/

/-- JS truthiness of a `string | undefined` value: `undefined` and the empty
string are falsy. -/
def strTruthy : Option String → Bool
  | none => false
  | some s => !(s == "")

/-- JS truthiness of a `number | undefined` value: `undefined` and `0` are
falsy (the gateway only ever handles non-negative integer counts here). -/
def natTruthy : Option Nat → Bool
  | none => false
  | some n => !(n == 0)

/-- `Map.get`: lookup in an insertion-ordered association list. -/
def jsGet {β : Type} : List (String × β) → String → Option β
  | [], _ => none
  | (k', v') :: rest, k => if k' = k then some v' else jsGet rest k

/-- `Map.set`: update in place when the key is present (keeping its position,
as a JavaScript `Map` does), append otherwise. -/
def jsSet {β : Type} : List (String × β) → String → β → List (String × β)
  | [], k, v => [(k, v)]
  | (k', v') :: rest, k, v =>
    if k' = k then (k, v) :: rest else (k', v') :: jsSet rest k v

/-- `Map.delete` / `delete obj[k]`: remove the binding for a key. -/
def jsDelete {β : Type} : List (String × β) → String → List (String × β)
  | [], _ => []
  | (k', v') :: rest, k => if k' = k then rest else (k', v') :: jsDelete rest k

/-- `Map.set` on a registry viewed as its key set (the values are opaque
stream-state records): insert the key if absent, keep position otherwise. -/
def jsSetKey : List String → String → List String
  | [], k => [k]
  | k' :: rest, k => if k' = k then k' :: rest else k' :: jsSetKey rest k

/-- `Map.delete` on a registry viewed as its key set. -/
def jsDeleteKey : List String → String → List String
  | [], _ => []
  | k' :: rest, k => if k' = k then rest else k' :: jsDeleteKey rest k

/-- JS `String.prototype.split(sep)` (no limit): split on every occurrence of
the separator character. -/
def jsSplitChars (sep : Char) : List Char → List (List Char)
  | [] => [[]]
  | c :: cs =>
    let r := jsSplitChars sep cs
    if c = sep then [] :: r
    else
      match r with
      | h :: t => (c :: h) :: t
      | [] => [[c]]

/-- JS `model.split(sep, 2)`: the first two pieces of the full split (pieces
after the second separator are discarded, which is the behaviour the model
router relies on). -/
def jsSplitLimit2 (sep : Char) (s : String) : List String :=
  ((jsSplitChars sep s.data).take 2).map String.mk

/-- JS `String.prototype.includes(c)` for a single-character needle. -/
def hasChar (sep : Char) (s : String) : Bool :=
  s.data.any (fun c => c = sep)

/-- JS `String.prototype.trim()` (restricted to ASCII whitespace, which is all
the router's comma syntax uses). -/
def jsTrim (s : String) : String :=
  String.mk (((s.data.dropWhile Char.isWhitespace).reverse.dropWhile Char.isWhitespace).reverse)

/-! ## JSON validity (the semantics of a successful `JSON.parse`)

`StreamingResponseBuilder.handleToolCallChunk` gates its delta emission on
`JSON.parse(buffer)` not throwing.  We embed the RFC 8259 grammar that
`JSON.parse` accepts as a fuel-indexed recursive-descent recognizer over the
character list; each parser returns the unconsumed remainder on success. -/

/-- JSON insignificant whitespace: space, tab, line feed, carriage return. -/
def isJsonWs (c : Char) : Bool :=
  c = ' ' || c = '\t' || c = '\n' || c = '\r'

/-- Skip leading JSON whitespace. -/
def skipWs : List Char → List Char
  | [] => []
  | c :: cs => if isJsonWs c then skipWs cs else c :: cs

/-- The opening-brace character `\x7b` of a JSON object. -/
def isLBrace (c : Char) : Bool := c.toNat = 0x7b

/-- The closing-brace character `\x7d` of a JSON object. -/
def isRBrace (c : Char) : Bool := c.toNat = 0x7d

/-- Recognize a fixed literal (`true`, `false`, `null` tails). -/
def parseLiteral : List Char → List Char → Option (List Char)
  | [], s => some s
  | _ :: _, [] => none
  | l :: ls, c :: cs => if c = l then parseLiteral ls cs else none

/-- Hexadecimal digit, for `\uXXXX` string escapes. -/
def isHexDigit (c : Char) : Bool :=
  c.isDigit || ('a' ≤ c && c ≤ 'f') || ('A' ≤ c && c ≤ 'F')

/-- Recognize the rest of a JSON string after the opening quote, consuming the
closing quote: any char except quote, backslash and controls, or an escape. -/
def parseStringRest : Nat → List Char → Option (List Char)
  | 0, _ => none
  | _ + 1, [] => none
  | fuel + 1, c :: cs =>
    if c = '"' then some cs
    else if c = '\\' then
      match cs with
      | [] => none
      | e :: cs' =>
        if e = 'u' then
          match cs' with
          | a :: b :: c2 :: d :: cs'' =>
            if isHexDigit a && isHexDigit b && isHexDigit c2 && isHexDigit d then
              parseStringRest fuel cs''
            else none
          | _ => none
        else if e = '"' || e = '\\' || e = '/' || e = 'b' || e = 'f' || e = 'n'
            || e = 'r' || e = 't' then
          parseStringRest fuel cs'
        else none
    else if c.toNat < 0x20 then none
    else parseStringRest fuel cs

/-- Recognize an optional JSON fraction part (`.` followed by ≥1 digit). -/
def parseFrac (s : List Char) : Option (List Char) :=
  match s with
  | c :: rest =>
    if c = '.' then
      let ds := rest.takeWhile Char.isDigit
      if ds.isEmpty then none else some (rest.dropWhile Char.isDigit)
    else some s
  | [] => some s

/-- Recognize an optional JSON exponent part (`e`/`E`, sign, ≥1 digit). -/
def parseExp (s : List Char) : Option (List Char) :=
  match s with
  | c :: rest =>
    if c = 'e' || c = 'E' then
      let rest' :=
        match rest with
        | c2 :: r2 => if c2 = '+' || c2 = '-' then r2 else rest
        | [] => rest
      let ds := rest'.takeWhile Char.isDigit
      if ds.isEmpty then none else some (rest'.dropWhile Char.isDigit)
    else some s
  | [] => some s

/-- Recognize a JSON number: optional minus, `0` or a nonzero-led digit run,
optional fraction, optional exponent. -/
def parseNumber (s : List Char) : Option (List Char) :=
  let s1 :=
    match s with
    | c :: cs => if c = '-' then cs else s
    | [] => s
  match s1 with
  | [] => none
  | c :: cs =>
    if c = '0' then
      match parseFrac cs with
      | some r => parseExp r
      | none => none
    else if c.isDigit then
      match parseFrac (cs.dropWhile Char.isDigit) with
      | some r => parseExp r
      | none => none
    else none

mutual

/-- Recognize a JSON value (object, array, string, number, or literal). -/
def parseValue : Nat → List Char → Option (List Char)
  | 0, _ => none
  | _ + 1, [] => none
  | fuel + 1, c :: cs =>
    if isLBrace c then
      match skipWs cs with
      | [] => none
      | c1 :: rest =>
        if isRBrace c1 then some rest
        else
          match parseMembers fuel (c1 :: rest) with
          | some (c2 :: rest2) => if isRBrace c2 then some rest2 else none
          | _ => none
    else if c = '[' then
      match skipWs cs with
      | [] => none
      | c1 :: rest =>
        if c1 = ']' then some rest
        else
          match parseElements fuel (c1 :: rest) with
          | some (c2 :: rest2) => if c2 = ']' then some rest2 else none
          | _ => none
    else if c = '"' then parseStringRest (cs.length + 1) cs
    else if c = 't' then parseLiteral ['r', 'u', 'e'] cs
    else if c = 'f' then parseLiteral ['a', 'l', 's', 'e'] cs
    else if c = 'n' then parseLiteral ['u', 'l', 'l'] cs
    else parseNumber (c :: cs)

/-- Recognize one-or-more object members `string ws : element (, ws members)`.
The caller has already consumed leading whitespace. -/
def parseMembers : Nat → List Char → Option (List Char)
  | 0, _ => none
  | fuel + 1, s =>
    match s with
    | c :: cs =>
      if c = '"' then
        match parseStringRest (cs.length + 1) cs with
        | some rest =>
          match skipWs rest with
          | c1 :: rest2 =>
            if c1 = ':' then
              match parseElement fuel rest2 with
              | some rest3 =>
                match rest3 with
                | c2 :: rest4 =>
                  if c2 = ',' then parseMembers fuel (skipWs rest4) else some rest3
                | [] => some rest3
              | none => none
            else none
          | [] => none
        | none => none
      else none
    | [] => none

/-- Recognize one-or-more array elements `element (, elements)`. -/
def parseElements : Nat → List Char → Option (List Char)
  | 0, _ => none
  | fuel + 1, s =>
    match parseElement fuel s with
    | some rest =>
      match rest with
      | c :: rest2 => if c = ',' then parseElements fuel rest2 else some rest
      | [] => some rest
    | none => none

/-- Recognize `ws value ws`. -/
def parseElement : Nat → List Char → Option (List Char)
  | 0, _ => none
  | fuel + 1, s =>
    match parseValue fuel (skipWs s) with
    | some rest => some (skipWs rest)
    | none => none

end

/-- `JSON.parse(s)` succeeds exactly when `s` is `ws value ws` with nothing
left over.  The fuel bound dominates the recursion depth, which consumes at
least one character per four fuel units. -/
def jsonValid (s : String) : Bool :=
  match parseElement (4 * s.data.length + 8) s.data with
  | some [] => true
  | _ => false

/-! ## Anthropic wire model (`responseConverter.ts`)

`StreamEvent` mirrors the tagged SSE event records the converter builds; the
`build*Event` functions keep their source names.  `formatSSE` frames each
event as `event: <type>\ndata: <json>\n\n`, so a handler's string output is
empty exactly when its event list is empty. -/

/-- Claude wire stop reasons (`'end_turn' | 'max_tokens' | 'stop_sequence'
| 'tool_use'`). -/
inductive ClaudeStopReason
  | end_turn
  | max_tokens
  | stop_sequence
  | tool_use
deriving DecidableEq, Repr

/-- Claude usage record `{input_tokens, output_tokens}`. -/
structure ClaudeUsage where
  input_tokens : Nat
  output_tokens : Nat
deriving DecidableEq, Repr

/-- The Anthropic-variant SSE events built by `responseConverter.ts`. -/
inductive StreamEvent
  | message_start (messageId : String) (model : String)
  | content_block_start_text (index : Nat)
  | content_block_start_tool_use (index : Nat) (toolId : String) (toolName : String)
  | content_block_delta_text (index : Nat) (text : String)
  | content_block_delta_input_json (index : Nat) (partialJson : String)
  | content_block_stop (index : Nat)
  | message_delta (stop_reason : Option ClaudeStopReason) (usage : ClaudeUsage)
  | message_stop
  | ping
  | error (errorType : String) (message : String)
deriving DecidableEq, Repr

def buildMessageStartEvent (messageId : String) (model : String) : StreamEvent :=
  .message_start messageId model

def buildTextBlockStartEvent (index : Nat) : StreamEvent :=
  .content_block_start_text index

def buildToolUseBlockStartEvent (index : Nat) (toolId : String) (toolName : String) :
    StreamEvent :=
  .content_block_start_tool_use index toolId toolName

def buildTextDeltaEvent (index : Nat) (text : String) : StreamEvent :=
  .content_block_delta_text index text

def buildInputJsonDeltaEvent (index : Nat) (partialJson : String) : StreamEvent :=
  .content_block_delta_input_json index partialJson

def buildContentBlockStopEvent (index : Nat) : StreamEvent :=
  .content_block_stop index

def buildMessageDeltaEvent (stopReason : Option ClaudeStopReason) (usage : ClaudeUsage) :
    StreamEvent :=
  .message_delta stopReason usage

def buildMessageStopEvent : StreamEvent := .message_stop

def buildPingEvent : StreamEvent := .ping

def buildErrorEvent (errorType : String) (message : String) : StreamEvent :=
  .error errorType message

/-- `mapStopReason(reason)`: `undefined` and `''` are falsy and map to `null`;
the switch falls through per case group, defaulting to `end_turn`. -/
def mapStopReason : Option String → Option ClaudeStopReason
  | none => none
  | some r =>
    if r = "" then none
    else if r = "complete" ∨ r = "stop" ∨ r = "end_turn" then some .end_turn
    else if r = "max_tokens" ∨ r = "length" then some .max_tokens
    else if r = "tool_use" ∨ r = "tool_calls" ∨ r = "function_call" then some .tool_use
    else if r = "stop_sequence" then some .stop_sequence
    else some .end_turn

/-- One entry of `StreamingResponseBuilder.currentToolCalls`. -/
structure ToolCallEntry where
  index : Nat
  name : String
  argsBuffer : String
  started : Bool
deriving DecidableEq, Repr

/-- State of `StreamingResponseBuilder` (the random `messageId` is a
constructor input here). -/
structure StreamingResponseBuilder where
  messageId : String
  model : String
  textBlockIndex : Nat := 0
  toolBlockCounter : Nat := 0
  currentToolCalls : List (String × ToolCallEntry) := []
  usage : ClaudeUsage := ⟨0, 0⟩
  stopReason : Option ClaudeStopReason := none
deriving DecidableEq, Repr

namespace StreamingResponseBuilder

/-- `new StreamingResponseBuilder(model)` with the generated message id. -/
def new (messageId : String) (model : String) : StreamingResponseBuilder :=
  { messageId := messageId, model := model }

/-- `getInitialEvents()`: message start, text block start at index 0, ping. -/
def getInitialEvents (b : StreamingResponseBuilder) : List StreamEvent :=
  [buildMessageStartEvent b.messageId b.model,
   buildTextBlockStartEvent b.textBlockIndex,
   buildPingEvent]

/-- `handleTextDelta(text)`. -/
def handleTextDelta (b : StreamingResponseBuilder) (text : String) : List StreamEvent :=
  [buildTextDeltaEvent b.textBlockIndex text]

/-- `handleToolCallStart(toolId, toolName)`: assign the next index
`textBlockIndex + toolBlockCounter` (after incrementing the counter), record
the buffer, emit the tool-use block start. -/
def handleToolCallStart (b : StreamingResponseBuilder) (toolId toolName : String) :
    StreamingResponseBuilder × List StreamEvent :=
  let counter := b.toolBlockCounter + 1
  let index := b.textBlockIndex + counter
  ({ b with
      toolBlockCounter := counter
      currentToolCalls :=
        jsSet b.currentToolCalls toolId
          { index := index, name := toolName, argsBuffer := "", started := true } },
   [buildToolUseBlockStartEvent index toolId toolName])

/-- `handleToolCallChunk(toolId, chunk)`: unknown id is a no-op returning
empty output; otherwise append to the buffer and emit an `input_json_delta`
carrying the whole buffer exactly when `JSON.parse` succeeds on it. -/
def handleToolCallChunk (b : StreamingResponseBuilder) (toolId chunk : String) :
    StreamingResponseBuilder × List StreamEvent :=
  match jsGet b.currentToolCalls toolId with
  | none => (b, [])
  | some tc =>
    let newBuffer := tc.argsBuffer ++ chunk
    let b' := { b with
      currentToolCalls :=
        jsSet b.currentToolCalls toolId { tc with argsBuffer := newBuffer } }
    if jsonValid newBuffer then
      (b', [buildInputJsonDeltaEvent tc.index newBuffer])
    else
      (b', [])

/-- `handleToolCallEnd(toolId, args)`: emit the final JSON only when it was
not already sent (buffer differs from the complete arguments). -/
def handleToolCallEnd (b : StreamingResponseBuilder) (toolId args : String) :
    List StreamEvent :=
  match jsGet b.currentToolCalls toolId with
  | none => []
  | some tc =>
    if tc.argsBuffer ≠ args then [buildInputJsonDeltaEvent tc.index args] else []

/-- `setUsage(inputTokens, outputTokens)`. -/
def setUsage (b : StreamingResponseBuilder) (inputTokens outputTokens : Nat) :
    StreamingResponseBuilder :=
  { b with usage := ⟨inputTokens, outputTokens⟩ }

/-- `setStopReason(reason)`. -/
def setStopReason (b : StreamingResponseBuilder) (reason : String) :
    StreamingResponseBuilder :=
  { b with stopReason := mapStopReason (some reason) }

/-- `getFinalEvents()`: close the text block, close every tool block in map
(registration) order, emit the message delta with the effective stop reason
(`tool_use` when any tool call is registered, else the recorded reason or
`end_turn`) and accumulated usage, then the message stop. -/
def getFinalEvents (b : StreamingResponseBuilder) : List StreamEvent :=
  [buildContentBlockStopEvent b.textBlockIndex]
    ++ b.currentToolCalls.map (fun p => buildContentBlockStopEvent p.2.index)
    ++ [buildMessageDeltaEvent
          (some (if b.currentToolCalls.isEmpty then b.stopReason.getD .end_turn
                 else .tool_use))
          b.usage]
    ++ [buildMessageStopEvent]

/-- `getErrorEvent(errorType, message)`. -/
def getErrorEvent (_b : StreamingResponseBuilder) (errorType message : String) :
    List StreamEvent :=
  [buildErrorEvent errorType message]

end StreamingResponseBuilder

/-! ## OpenAI wire model (`openaiResponseBuilder.ts`) -/

/-- OpenAI wire finish reasons (`'stop' | 'length' | 'tool_calls'`). -/
inductive OpenAIFinishReason
  | stop
  | length
  | tool_calls
deriving DecidableEq, Repr

/-- OpenAI usage record. -/
structure OpenAIUsage where
  prompt_tokens : Nat
  completion_tokens : Nat
  total_tokens : Nat
deriving DecidableEq, Repr

/-- `mapToOpenAIFinishReason(reason, hasToolCalls)`: `tool_calls` whenever
`hasToolCalls`; otherwise `undefined`/`''` map to `null` and the switch
defaults to `stop`. -/
def mapToOpenAIFinishReason (reason : Option String) (hasToolCalls : Bool) :
    Option OpenAIFinishReason :=
  if hasToolCalls then some .tool_calls
  else
    match reason with
    | none => none
    | some r =>
      if r = "" then none
      else if r = "complete" ∨ r = "stop" ∨ r = "end_turn" then some .stop
      else if r = "max_tokens" ∨ r = "length" then some .length
      else if r = "tool_use" ∨ r = "tool_calls" ∨ r = "function_call" then some .tool_calls
      else some .stop

/-- The `function` part of a streaming tool-call delta: the start chunk sends
`{name, arguments: ''}` and an args chunk sends `{arguments}` alone. -/
structure OpenAIFunctionDelta where
  name : Option String
  arguments : String
deriving DecidableEq, Repr

/-- One element of a chunk's `delta.tool_calls`. -/
structure OpenAIToolCallDelta where
  index : Nat
  id : Option String
  typ : Option String
  function : OpenAIFunctionDelta
deriving DecidableEq, Repr

/-- A chunk's `delta` record; absent fields are `none`. -/
structure OpenAIDelta where
  role : Option String := none
  content : Option String := none
  tool_calls : Option (List OpenAIToolCallDelta) := none
deriving DecidableEq, Repr

/-- One `choices` element of a streaming chunk. -/
structure OpenAIChunkChoice where
  index : Nat
  delta : OpenAIDelta
  finish_reason : Option OpenAIFinishReason
deriving DecidableEq, Repr

/-- A streaming chunk (`object: 'chat.completion.chunk'`). -/
structure OpenAIStreamChunk where
  id : String
  created : Nat
  model : String
  choices : List OpenAIChunkChoice
  usage : Option OpenAIUsage := none
deriving DecidableEq, Repr

/-- One item written to the OpenAI SSE stream: a data chunk, or the literal
`data: [DONE]` terminator. -/
inductive OpenAISSEItem
  | chunk (c : OpenAIStreamChunk)
  | done
deriving DecidableEq, Repr

/-- One entry of `OpenAIStreamingBuilder.currentToolCalls`. -/
structure OpenAIToolEntry where
  index : Nat
  name : String
  argsBuffer : String
deriving DecidableEq, Repr

/-- State of `OpenAIStreamingBuilder` (random `id` and `created` timestamp
are constructor inputs here). -/
structure OpenAIStreamingBuilder where
  id : String
  model : String
  created : Nat
  toolCallIndex : Nat := 0
  currentToolCalls : List (String × OpenAIToolEntry) := []
  usagePromptTokens : Nat := 0
  usageCompletionTokens : Nat := 0
deriving DecidableEq, Repr

namespace OpenAIStreamingBuilder

/-- `new OpenAIStreamingBuilder(model)`. -/
def new (id : String) (model : String) (created : Nat) : OpenAIStreamingBuilder :=
  { id := id, model := model, created := created }

/-- `buildInitialChunk()`: the role-announcing first chunk. -/
def buildInitialChunk (b : OpenAIStreamingBuilder) : List OpenAISSEItem :=
  [.chunk { id := b.id, created := b.created, model := b.model,
            choices := [{ index := 0,
                          delta := { role := some "assistant", content := some "" },
                          finish_reason := none }] }]

/-- `buildContentChunk(content)`. -/
def buildContentChunk (b : OpenAIStreamingBuilder) (content : String) :
    List OpenAISSEItem :=
  [.chunk { id := b.id, created := b.created, model := b.model,
            choices := [{ index := 0,
                          delta := { content := some content },
                          finish_reason := none }] }]

/-- `buildToolCallStartChunk(toolId, toolName)`: allocate the next tool-call
index, record the entry, emit the start chunk carrying id, type and name. -/
def buildToolCallStartChunk (b : OpenAIStreamingBuilder) (toolId toolName : String) :
    OpenAIStreamingBuilder × List OpenAISSEItem :=
  let index := b.toolCallIndex
  let tcDelta : OpenAIToolCallDelta :=
    { index := index, id := some toolId, typ := some "function",
      function := { name := some toolName, arguments := "" } }
  ({ b with
      toolCallIndex := b.toolCallIndex + 1
      currentToolCalls :=
        jsSet b.currentToolCalls toolId
          { index := index, name := toolName, argsBuffer := "" } },
   [.chunk { id := b.id, created := b.created, model := b.model,
             choices := [{ index := 0,
                           delta := { tool_calls := some [tcDelta] },
                           finish_reason := none }] }])

/-- `buildToolCallArgsChunk(toolId, args)`: unknown id is a no-op returning
empty output; otherwise forward the fragment verbatim in one chunk, without
touching the recorded entry (no buffering). -/
def buildToolCallArgsChunk (b : OpenAIStreamingBuilder) (toolId args : String) :
    OpenAIStreamingBuilder × List OpenAISSEItem :=
  match jsGet b.currentToolCalls toolId with
  | none => (b, [])
  | some tc =>
    let tcDelta : OpenAIToolCallDelta :=
      { index := tc.index, id := none, typ := none,
        function := { name := none, arguments := args } }
    (b,
     [.chunk { id := b.id, created := b.created, model := b.model,
               choices := [{ index := 0,
                             delta := { tool_calls := some [tcDelta] },
                             finish_reason := none }] }])

/-- `setUsage(promptTokens, completionTokens)`. -/
def setUsage (b : OpenAIStreamingBuilder) (promptTokens completionTokens : Nat) :
    OpenAIStreamingBuilder :=
  { b with usagePromptTokens := promptTokens, usageCompletionTokens := completionTokens }

/-- `buildFinalChunk(finishReason)`: empty delta, the finish reason, and the
accumulated usage. -/
def buildFinalChunk (b : OpenAIStreamingBuilder) (finishReason : Option OpenAIFinishReason) :
    List OpenAISSEItem :=
  [.chunk { id := b.id, created := b.created, model := b.model,
            choices := [{ index := 0, delta := {}, finish_reason := finishReason }],
            usage := some { prompt_tokens := b.usagePromptTokens,
                            completion_tokens := b.usageCompletionTokens,
                            total_tokens := b.usagePromptTokens + b.usageCompletionTokens } }]

/-- `buildDone()`: the literal `data: [DONE]` frame. -/
def buildDone (_b : OpenAIStreamingBuilder) : List OpenAISSEItem :=
  [.done]

/-- `hasToolCalls()`. -/
def hasToolCalls (b : OpenAIStreamingBuilder) : Bool :=
  !b.currentToolCalls.isEmpty

end OpenAIStreamingBuilder

/-- The arguments-only delta chunk shape emitted by `buildToolCallArgsChunk`
for a registered tool call at a given index. -/
def toolArgsDeltaItem (b : OpenAIStreamingBuilder) (index : Nat) (args : String) :
    OpenAISSEItem :=
  let tcDelta : OpenAIToolCallDelta :=
    { index := index, id := none, typ := none,
      function := { name := none, arguments := args } }
  .chunk { id := b.id, created := b.created, model := b.model,
           choices := [{ index := 0,
                         delta := { tool_calls := some [tcDelta] },
                         finish_reason := none }] }

/-! ## Model router (`messageConverter.ts`, `mapClaudeModel`) -/

/-- The static table of known Claude model names. -/
def claudeModelMappings (model : String) : Option (String × String) :=
  if model = "claude-3-5-sonnet-20241022" then some ("anthropic", "claude-3-5-sonnet-20241022")
  else if model = "claude-3-5-haiku-20241022" then some ("anthropic", "claude-3-5-haiku-20241022")
  else if model = "claude-3-opus-20240229" then some ("anthropic", "claude-3-opus-20240229")
  else if model = "claude-3-sonnet-20240229" then some ("anthropic", "claude-3-sonnet-20240229")
  else if model = "claude-3-haiku-20240307" then some ("anthropic", "claude-3-haiku-20240307")
  else if model = "claude-sonnet-4-20250514" then some ("anthropic", "claude-sonnet-4-20250514")
  else if model = "claude-opus-4-20250514" then some ("anthropic", "claude-opus-4-20250514")
  else none

/-- `mapClaudeModel(model, defaultProviderId?, defaultModelId?)`, with JS
truthiness on the optional defaults and `split(sep, 2)` keeping only the
first two pieces of the full split. -/
def mapClaudeModel (model : String) (defaultProviderId defaultModelId : Option String) :
    Option (String × String) :=
  if strTruthy defaultProviderId && strTruthy defaultModelId then
    some (defaultProviderId.getD "", defaultModelId.getD "")
  else
    let slashResult : Option (String × String) :=
      if hasChar '/' model then
        match jsSplitLimit2 '/' model with
        | p :: m :: _ => if p ≠ "" ∧ m ≠ "" then some (p, m) else none
        | _ => none
      else none
    match slashResult with
    | some r => some r
    | none =>
      let commaResult : Option (String × String) :=
        if hasChar ',' model then
          match jsSplitLimit2 ',' model with
          | p :: m :: _ => if p ≠ "" ∧ m ≠ "" then some (jsTrim p, jsTrim m) else none
          | _ => none
        else none
      match commaResult with
      | some r => some r
      | none =>
        match claudeModelMappings model with
        | some r => some r
        | none =>
          if strTruthy defaultProviderId then some (defaultProviderId.getD "", model)
          else none

/-- Split a string at the first occurrence of a separator, keeping everything
after it as the second part. -/
def splitAtFirst (sep : Char) : List Char → Option (List Char × List Char)
  | [] => none
  | c :: cs =>
    if c = sep then some ([], cs)
    else (splitAtFirst sep cs).map (fun p => (c :: p.1, p.2))

/-- Modelled from the spec for comparison with `mapClaudeModel` (claim C3):
steps 2 and 3 "split into exactly two parts on the first occurrence", so the
model id is everything after the first separator. -/
def mapClaudeModelSpec (model : String) (defaultProviderId defaultModelId : Option String) :
    Option (String × String) :=
  if strTruthy defaultProviderId && strTruthy defaultModelId then
    some (defaultProviderId.getD "", defaultModelId.getD "")
  else
    let slashResult : Option (String × String) :=
      match splitAtFirst '/' model.data with
      | some (p, m) =>
        if p ≠ [] ∧ m ≠ [] then some (String.mk p, String.mk m) else none
      | none => none
    match slashResult with
    | some r => some r
    | none =>
      let commaResult : Option (String × String) :=
        match splitAtFirst ',' model.data with
        | some (p, m) =>
          if p ≠ [] ∧ m ≠ [] then some (jsTrim (String.mk p), jsTrim (String.mk m)) else none
        | none => none
      match commaResult with
      | some r => some r
      | none =>
        match claudeModelMappings model with
        | some r => some r
        | none =>
          if strTruthy defaultProviderId then some (defaultProviderId.getD "", model)
          else none

/-! ## Request validation and dispatch (`index.ts`, `handleMessages` /
`handleChatCompletions`) -/

/-- The wire-format error envelopes: Anthropic
`{type:'error', error:{type, message}}` sent by `sendError`, and OpenAI
`{error:{message, type, param:null, code:null}}` sent by `sendOpenAIError`. -/
inductive ErrorEnvelope
  | anthropic (typ : String) (message : String)
  | openai (message : String) (typ : String)
deriving DecidableEq, Repr

/-- The parsed `messages` field of a request body: a JSON array (of
`length` elements, whose shapes the validator does not inspect), or some
other truthy non-array value.  Falsy non-array values (`undefined`, `null`,
`0`, `''`, `false`) fail the same `!request.messages` test as an absent
field and are modelled as `none` at the request level. -/
inductive MessagesField
  | arr (length : Nat)
  | nonArray
deriving DecidableEq, Repr

/-- The fields of a `/v1/messages` body that the validator and router read. -/
structure ClaudeMessagesRequestModel where
  model : Option String
  messages : Option MessagesField
  max_tokens : Option Nat
  stream : Bool
deriving DecidableEq, Repr

/-- The fields of a `/v1/chat/completions` body that the validator and
router read. -/
structure OpenAIChatCompletionsRequestModel where
  model : Option String
  messages : Option MessagesField
  stream : Bool
deriving DecidableEq, Repr

/-- The required-field checks of `handleMessages` (lines 211-222): falsy
`model`, falsy or non-array `messages`, falsy `max_tokens`, in that order. -/
def validateClaudeRequest (r : ClaudeMessagesRequestModel) :
    Option (Nat × ErrorEnvelope) :=
  if !strTruthy r.model then
    some (400, .anthropic "invalid_request_error" "Missing required field: model")
  else
    match r.messages with
    | none =>
      some (400, .anthropic "invalid_request_error" "Missing required field: messages")
    | some .nonArray =>
      some (400, .anthropic "invalid_request_error" "Missing required field: messages")
    | some (.arr _) =>
      if !natTruthy r.max_tokens then
        some (400, .anthropic "invalid_request_error" "Missing required field: max_tokens")
      else none

/-- The required-field checks of `handleChatCompletions` (lines 545-552):
falsy `model`, falsy or non-array `messages`; no `max_tokens` check. -/
def validateOpenAIRequest (r : OpenAIChatCompletionsRequestModel) :
    Option (Nat × ErrorEnvelope) :=
  if !strTruthy r.model then
    some (400, .openai "Missing required field: model" "invalid_request_error")
  else
    match r.messages with
    | none =>
      some (400, .openai "Missing required field: messages" "invalid_request_error")
    | some .nonArray =>
      some (400, .openai "Missing required field: messages" "invalid_request_error")
    | some (.arr _) => none

/-- What a handler decides before any response bytes are produced: respond
with an error envelope immediately, or open a session (streaming upgrades the
connection, non-streaming aggregates). -/
inductive HandlerOutcome
  | respondError (status : Nat) (envelope : ErrorEnvelope)
  | proceedStreaming (providerId : String) (modelId : String)
  | proceedNonStreaming (providerId : String) (modelId : String)
deriving DecidableEq, Repr

/-- `handleMessages` up to the streaming/non-streaming dispatch: validation,
then model routing, then the provider-existence check (`getProviderById`
throwing is abstracted by the `providerExists` oracle). -/
def handleMessagesDecision (providerExists : String → Bool)
    (defaultProviderId defaultModelId : Option String)
    (r : ClaudeMessagesRequestModel) : HandlerOutcome :=
  match validateClaudeRequest r with
  | some (status, env) => .respondError status env
  | none =>
    match mapClaudeModel (r.model.getD "") defaultProviderId defaultModelId with
    | none =>
      .respondError 400 (.anthropic "invalid_request_error" "Unable to map model")
    | some (providerId, modelId) =>
      if providerExists providerId then
        if r.stream then .proceedStreaming providerId modelId
        else .proceedNonStreaming providerId modelId
      else
        .respondError 400 (.anthropic "invalid_request_error" "Provider not found")

/-- `handleChatCompletions` up to the streaming/non-streaming dispatch. -/
def handleChatCompletionsDecision (providerExists : String → Bool)
    (defaultProviderId defaultModelId : Option String)
    (r : OpenAIChatCompletionsRequestModel) : HandlerOutcome :=
  match validateOpenAIRequest r with
  | some (status, env) => .respondError status env
  | none =>
    match mapClaudeModel (r.model.getD "") defaultProviderId defaultModelId with
    | none =>
      .respondError 400 (.openai "Unable to map model" "invalid_request_error")
    | some (providerId, modelId) =>
      if providerExists providerId then
        if r.stream then .proceedStreaming providerId modelId
        else .proceedNonStreaming providerId modelId
      else
        .respondError 400 (.openai "Provider not found" "invalid_request_error")

/-! ## Canonical agent events (`LLMAgentEvent`) -/

/-- The `tool_call` discriminator of a response event's data. -/
inductive ToolCallPhase
  | start
  | update
  | permissionRequired
deriving DecidableEq, Repr

/-- The `totalUsage` record carried by response events. -/
structure TotalUsage where
  prompt_tokens : Nat
  completion_tokens : Nat
  total_tokens : Nat
deriving DecidableEq, Repr

/-- The `permission_request` payload attached to a `permission-required`
response (the `options` list is carried through opaquely as option ids). -/
structure PermissionRequest where
  toolName : String
  serverName : String
  permissionType : String
  description : String
  providerId : Option String
  requestId : String
  sessionId : Option String
  agentId : Option String
  agentName : Option String
  conversationId : Option String
  options : List String
  rememberable : Bool
deriving DecidableEq, Repr

/-- The data record of an `LLMAgentEvent` of type `response` (the fields the
gateway handlers read, plus the presentational fields `runSlashCommand`
forwards; absent fields are `none`; `image_data` and `rate_limit` payloads
are carried opaquely). -/
structure AgentResponseData where
  content : Option String := none
  reasoning_content : Option String := none
  tool_call : Option ToolCallPhase := none
  tool_call_id : Option String := none
  tool_call_name : Option String := none
  tool_call_params : Option String := none
  tool_call_server_name : Option String := none
  tool_call_server_icons : Option String := none
  tool_call_server_description : Option String := none
  tool_call_response : Option String := none
  permission_request : Option PermissionRequest := none
  totalUsage : Option TotalUsage := none
  image_data : Option String := none
  rate_limit : Option String := none
deriving DecidableEq, Repr

/-- The canonical agent event union `response | end | error` (`end` and
`error` are spelled `evEnd`/`evError` because `end` is a Lean keyword). -/
inductive LLMAgentEvent
  | response (data : AgentResponseData)
  | evEnd (userStop : Bool)
  | evError (error : String)
deriving DecidableEq, Repr

/-! ## Anthropic streaming handler (`handleStreamingResponse`) -/

/-- Loop state of `handleStreamingResponse`: the builder plus the
`inputTokens` / `outputTokens` accumulators. -/
structure AnthroStreamState where
  builder : StreamingResponseBuilder
  inputTokens : Nat
  outputTokens : Nat
deriving DecidableEq, Repr

/-- One iteration of the `for await` loop of `handleStreamingResponse`
(lines 298-346): text and reasoning deltas, tool-call start/update with JS
truthiness guards, usage capture, stop-reason recording on `end`, and an
in-band error event on `error`. -/
def anthroStreamStep (st : AnthroStreamState) (ev : LLMAgentEvent) :
    AnthroStreamState × List StreamEvent :=
  match ev with
  | .response d =>
    let out1 :=
      if strTruthy d.content then st.builder.handleTextDelta (d.content.getD "") else []
    let out2 :=
      if strTruthy d.reasoning_content then
        st.builder.handleTextDelta (d.reasoning_content.getD "")
      else []
    let (b1, out3) :=
      if d.tool_call = some .start ∧ strTruthy d.tool_call_id ∧ strTruthy d.tool_call_name then
        st.builder.handleToolCallStart (d.tool_call_id.getD "") (d.tool_call_name.getD "")
      else (st.builder, [])
    let (b2, out4) :=
      if d.tool_call = some .update ∧ strTruthy d.tool_call_id ∧ strTruthy d.tool_call_params then
        b1.handleToolCallChunk (d.tool_call_id.getD "") (d.tool_call_params.getD "")
      else (b1, [])
    let (it, ot) :=
      match d.totalUsage with
      | some u => (u.prompt_tokens, u.completion_tokens)
      | none => (st.inputTokens, st.outputTokens)
    ({ builder := b2, inputTokens := it, outputTokens := ot }, out1 ++ out2 ++ out3 ++ out4)
  | .evEnd userStop =>
    ({ st with builder :=
        st.builder.setStopReason (if userStop then "stop_sequence" else "end_turn") }, [])
  | .evError msg =>
    (st, st.builder.getErrorEvent "api_error" msg)

/-- Run the loop over the whole provider event stream, concatenating the
written output. -/
def runAnthroStream (st : AnthroStreamState) :
    List LLMAgentEvent → AnthroStreamState × List StreamEvent
  | [] => (st, [])
  | e :: es =>
    ((runAnthroStream (anthroStreamStep st e).1 es).1,
     (anthroStreamStep st e).2 ++ (runAnthroStream (anthroStreamStep st e).1 es).2)

/-- `handleStreamingResponse` as a function from the provider event stream to
everything written to the open SSE connection: initial events, the loop's
output, then `setUsage` and the final events. -/
def handleStreamingResponseModel (messageId model : String)
    (events : List LLMAgentEvent) : List StreamEvent :=
  let b0 := StreamingResponseBuilder.new messageId model
  let r := runAnthroStream { builder := b0, inputTokens := 0, outputTokens := 0 } events
  let bFinal := r.1.builder.setUsage r.1.inputTokens r.1.outputTokens
  b0.getInitialEvents ++ r.2 ++ bFinal.getFinalEvents

/-! ## Anthropic non-streaming handler (`handleNonStreamingResponse`) -/

/-- The `input` value stored for a tool call: `{}` at start, the
`JSON.parse`d params when they parse, or `{raw: params}` otherwise.  The
parsed value is represented by the source string that produced it. -/
inductive ToolInputVal
  | emptyObj
  | parsedJson (params : String)
  | rawWrapped (params : String)
deriving DecidableEq, Repr

/-- One entry of the handler-local `toolCalls` map. -/
structure NSToolEntry where
  name : String
  input : ToolInputVal
deriving DecidableEq, Repr

/-- Loop state of `handleNonStreamingResponse` (lines 373-378): accumulated
text, the tool-call map, usage, and `stopReason` initialized to
`'complete'`. -/
structure AnthroNonStreamState where
  textContent : String := ""
  toolCalls : List (String × NSToolEntry) := []
  inputTokens : Nat := 0
  outputTokens : Nat := 0
  stopReason : String := "complete"
deriving DecidableEq, Repr

/-- One `response` event of the `for await` loop of
`handleNonStreamingResponse` (lines 393-423). -/
def anthroNonStreamStep (st : AnthroNonStreamState) (d : AgentResponseData) :
    AnthroNonStreamState :=
  let text1 := if strTruthy d.content then st.textContent ++ d.content.getD "" else st.textContent
  let text2 := if strTruthy d.reasoning_content then text1 ++ d.reasoning_content.getD "" else text1
  let tcs1 :=
    if d.tool_call = some .start ∧ strTruthy d.tool_call_id ∧ strTruthy d.tool_call_name then
      jsSet st.toolCalls (d.tool_call_id.getD "")
        { name := d.tool_call_name.getD "", input := .emptyObj }
    else st.toolCalls
  let tcs2 :=
    if d.tool_call = some .update ∧ strTruthy d.tool_call_id ∧ strTruthy d.tool_call_params then
      match jsGet tcs1 (d.tool_call_id.getD "") with
      | some entry =>
        let params := d.tool_call_params.getD ""
        jsSet tcs1 (d.tool_call_id.getD "")
          { entry with input :=
              if jsonValid params then .parsedJson params else .rawWrapped params }
      | none => tcs1
    else tcs1
  let (it, ot) :=
    match d.totalUsage with
    | some u => (u.prompt_tokens, u.completion_tokens)
    | none => (st.inputTokens, st.outputTokens)
  { textContent := text2, toolCalls := tcs2, inputTokens := it, outputTokens := ot,
    stopReason := st.stopReason }

/-- Run the non-streaming loop; an `error` event throws (`Except.error`),
short-circuiting the rest of the stream. -/
def runAnthroNonStream (st : AnthroNonStreamState) :
    List LLMAgentEvent → Except String AnthroNonStreamState
  | [] => .ok st
  | .response d :: es => runAnthroNonStream (anthroNonStreamStep st d) es
  | .evEnd userStop :: es =>
    runAnthroNonStream
      { st with stopReason := if userStop then "stop_sequence" else "end_turn" } es
  | .evError msg :: _ => .error msg

/-- Wire-level content block of the Anthropic non-streaming response. -/
inductive ContentBlock
  | text (text : String)
  | tool_use (id : String) (name : String) (input : ToolInputVal)
deriving DecidableEq, Repr

/-- The Anthropic non-streaming response (`buildNonStreamingResponse`); the
random `msg_…` id is not modelled. -/
structure ClaudeMessagesResponse where
  model : String
  content : List ContentBlock
  stop_reason : Option ClaudeStopReason
  usage : ClaudeUsage
deriving DecidableEq, Repr

/-- Content assembly of `handleNonStreamingResponse` (lines 435-452): a text
block when text accumulated, one `tool_use` block per map entry in insertion
(first-start) order, and a fallback empty text block when nothing else. -/
def buildNonStreamContent (st : AnthroNonStreamState) : List ContentBlock :=
  let blocks :=
    (if st.textContent ≠ "" then [ContentBlock.text st.textContent] else [])
      ++ st.toolCalls.map (fun p => ContentBlock.tool_use p.1 p.2.name p.2.input)
  if blocks.isEmpty then [ContentBlock.text ""] else blocks

/-- `handleNonStreamingResponse` as a function from the provider event
stream to either an HTTP 500 error envelope or the JSON response. -/
def handleNonStreamingResponseModel (model : String) (events : List LLMAgentEvent) :
    Except (Nat × ErrorEnvelope) ClaudeMessagesResponse :=
  match runAnthroNonStream {} events with
  | .error msg => .error (500, .anthropic "api_error" msg)
  | .ok st =>
    .ok { model := model
          content := buildNonStreamContent st
          stop_reason :=
            if st.toolCalls.isEmpty then mapStopReason (some st.stopReason)
            else some .tool_use
          usage := ⟨st.inputTokens, st.outputTokens⟩ }

/-! ## OpenAI streaming handler (`handleOpenAIStreamingResponse`) -/

/-- Loop state of `handleOpenAIStreamingResponse`: the builder, usage
accumulators, and the `stopReason` local (`undefined` initially). -/
structure OpenAIStreamState where
  builder : OpenAIStreamingBuilder
  inputTokens : Nat
  outputTokens : Nat
  stopReason : Option String
deriving DecidableEq, Repr

/-- One iteration of the `for await` loop of `handleOpenAIStreamingResponse`
(lines 629-671).  The `error` case only logs: nothing is written in-band and
the loop continues. -/
def openAIStreamStep (st : OpenAIStreamState) (ev : LLMAgentEvent) :
    OpenAIStreamState × List OpenAISSEItem :=
  match ev with
  | .response d =>
    let out1 :=
      if strTruthy d.content then st.builder.buildContentChunk (d.content.getD "") else []
    let out2 :=
      if strTruthy d.reasoning_content then
        st.builder.buildContentChunk (d.reasoning_content.getD "")
      else []
    let (b1, out3) :=
      if d.tool_call = some .start ∧ strTruthy d.tool_call_id ∧ strTruthy d.tool_call_name then
        st.builder.buildToolCallStartChunk (d.tool_call_id.getD "") (d.tool_call_name.getD "")
      else (st.builder, [])
    let (b2, out4) :=
      if d.tool_call = some .update ∧ strTruthy d.tool_call_id ∧ strTruthy d.tool_call_params then
        b1.buildToolCallArgsChunk (d.tool_call_id.getD "") (d.tool_call_params.getD "")
      else (b1, [])
    let (it, ot) :=
      match d.totalUsage with
      | some u => (u.prompt_tokens, u.completion_tokens)
      | none => (st.inputTokens, st.outputTokens)
    ({ st with builder := b2, inputTokens := it, outputTokens := ot },
     out1 ++ out2 ++ out3 ++ out4)
  | .evEnd userStop =>
    ({ st with stopReason := some (if userStop then "stop" else "stop") }, [])
  | .evError _ => (st, [])

/-- Run the OpenAI streaming loop over the whole event stream. -/
def runOpenAIStream (st : OpenAIStreamState) :
    List LLMAgentEvent → OpenAIStreamState × List OpenAISSEItem
  | [] => (st, [])
  | e :: es =>
    ((runOpenAIStream (openAIStreamStep st e).1 es).1,
     (openAIStreamStep st e).2 ++ (runOpenAIStream (openAIStreamStep st e).1 es).2)

/-- `handleOpenAIStreamingResponse` as a function from the provider event
stream to everything written on the SSE connection: initial chunk, loop
output, final chunk with the mapped finish reason, and the `[DONE]` frame. -/
def handleOpenAIStreamingResponseModel (chunkId model : String) (created : Nat)
    (events : List LLMAgentEvent) : List OpenAISSEItem :=
  let b0 := OpenAIStreamingBuilder.new chunkId model created
  let r := runOpenAIStream
    { builder := b0, inputTokens := 0, outputTokens := 0, stopReason := none } events
  let bFinal := r.1.builder.setUsage r.1.inputTokens r.1.outputTokens
  let finishReason := mapToOpenAIFinishReason r.1.stopReason bFinal.hasToolCalls
  b0.buildInitialChunk ++ r.2 ++ bFinal.buildFinalChunk finishReason ++ bFinal.buildDone

/-! ## OpenAI non-streaming handler (`handleOpenAINonStreamingResponse`) -/

/-- One completed tool call pushed onto the response's `tool_calls` list
(`{id, type:'function', function:{name, arguments}}`). -/
structure OpenAIToolCallOut where
  id : String
  name : String
  arguments : String
deriving DecidableEq, Repr

/-- One entry of the handler-local `toolCallBuffers` map. -/
structure OpenAIToolBuffer where
  name : String
  args : String
deriving DecidableEq, Repr

/-- Loop state of `handleOpenAINonStreamingResponse` (lines 697-702). -/
structure OpenAINonStreamState where
  textContent : String := ""
  toolCalls : List OpenAIToolCallOut := []
  toolCallBuffers : List (String × OpenAIToolBuffer) := []
  inputTokens : Nat := 0
  outputTokens : Nat := 0
  stopReason : Option String := none
deriving DecidableEq, Repr

/-- One `response` event of the `for await` loop of
`handleOpenAINonStreamingResponse` (lines 717-752): a start creates a
buffer; every update on a buffered id overwrites the buffer's args and pushes
a completed tool call carrying that update's params. -/
def openAINonStreamStep (st : OpenAINonStreamState) (d : AgentResponseData) :
    OpenAINonStreamState :=
  let text1 := if strTruthy d.content then st.textContent ++ d.content.getD "" else st.textContent
  let text2 := if strTruthy d.reasoning_content then text1 ++ d.reasoning_content.getD "" else text1
  let bufs1 :=
    if d.tool_call = some .start ∧ strTruthy d.tool_call_id ∧ strTruthy d.tool_call_name then
      jsSet st.toolCallBuffers (d.tool_call_id.getD "")
        { name := d.tool_call_name.getD "", args := "" }
    else st.toolCallBuffers
  let (bufs2, calls2) :=
    if d.tool_call = some .update ∧ strTruthy d.tool_call_id ∧ strTruthy d.tool_call_params then
      match jsGet bufs1 (d.tool_call_id.getD "") with
      | some buffer =>
        let params := d.tool_call_params.getD ""
        (jsSet bufs1 (d.tool_call_id.getD "") { buffer with args := params },
         st.toolCalls ++ [{ id := d.tool_call_id.getD "", name := buffer.name,
                            arguments := params }])
      | none => (bufs1, st.toolCalls)
    else (bufs1, st.toolCalls)
  let (it, ot) :=
    match d.totalUsage with
    | some u => (u.prompt_tokens, u.completion_tokens)
    | none => (st.inputTokens, st.outputTokens)
  { textContent := text2, toolCalls := calls2, toolCallBuffers := bufs2,
    inputTokens := it, outputTokens := ot, stopReason := st.stopReason }

/-- Run the OpenAI non-streaming loop; an `error` event throws. -/
def runOpenAINonStream (st : OpenAINonStreamState) :
    List LLMAgentEvent → Except String OpenAINonStreamState
  | [] => .ok st
  | .response d :: es => runOpenAINonStream (openAINonStreamStep st d) es
  | .evEnd userStop :: es =>
    runOpenAINonStream { st with stopReason := some (if userStop then "stop" else "stop") } es
  | .evError msg :: _ => .error msg

/-- The OpenAI non-streaming response (`buildOpenAIResponse`); the random
`chatcmpl-…` id and `created` timestamp are not modelled. -/
structure OpenAIChatCompletionsResponse where
  model : String
  content : Option String
  tool_calls : Option (List OpenAIToolCallOut)
  finish_reason : Option OpenAIFinishReason
  usage : OpenAIUsage
deriving DecidableEq, Repr

/-- `handleOpenAINonStreamingResponse` as a function from the provider event
stream to either an HTTP 500 error envelope or the JSON response.  The
finish reason consults `toolCalls.length > 0` — the pushed-updates list, not
the buffers of started calls. -/
def handleOpenAINonStreamingResponseModel (model : String) (events : List LLMAgentEvent) :
    Except (Nat × ErrorEnvelope) OpenAIChatCompletionsResponse :=
  match runOpenAINonStream {} events with
  | .error msg => .error (500, .openai msg "api_error")
  | .ok st =>
    .ok { model := model
          content := if st.textContent = "" then none else some st.textContent
          tool_calls := if st.toolCalls.isEmpty then none else some st.toolCalls
          finish_reason := mapToOpenAIFinishReason st.stopReason (!st.toolCalls.isEmpty)
          usage := ⟨st.inputTokens, st.outputTokens,
                    st.inputTokens + st.outputTokens⟩ }

/-! ## Session loop (`llmProviderPresenter/index.ts`, `runSlashCommand`)

The async generator is embedded as a pure function of the provider's chunk
stream, an abort schedule (the signal is a one-way latch read at the top of
each loop iteration), and whether the provider stream throws after its
chunks.  The `finally` block — registry delete plus the terminal `end`
yield — runs on every exit path. -/

/-- The `permission` chunk payload emitted by the ACP provider (fields the
loop reads; `options` carried opaquely as ids). -/
structure AcpPermissionChunk where
  permissionType : Option String
  description : Option String
  tool_call_name : Option String
  tool_call_id : String
  tool_call_params : Option String
  server_name : Option String
  server_icons : Option String
  server_description : Option String
  agentName : Option String
  providerName : Option String
  providerId : Option String
  requestId : String
  sessionId : Option String
  agentId : Option String
  conversationId : Option String
  options : List String
  metadataRememberable : Option Bool
deriving DecidableEq, Repr

/-- The provider-side chunk union consumed by `runSlashCommand`. -/
inductive SlashChunk
  | text (content : Option String)
  | reasoning (reasoning_content : Option String)
  | tool_call_start (tool_call_id : Option String) (tool_call_name : Option String)
  | tool_call_chunk (tool_call_id : Option String) (tool_call_arguments_chunk : Option String)
  | tool_call_end (tool_call_id : Option String) (tool_call_arguments_complete : Option String)
  | permission (p : AcpPermissionChunk)
  | usage (usage : Option TotalUsage)
  | image_data (image_data : Option String)
  | rate_limit (rate_limit : Option String)
  | error (error_message : Option String)
  | stop
deriving DecidableEq, Repr

/-- One entry of the loop-local `toolCallChunks` record. -/
structure SlashToolEntry where
  name : String
  arguments_chunk : String
deriving DecidableEq, Repr

/-- Loop-local state of `runSlashCommand`. -/
structure SlashState where
  toolCallChunks : List (String × SlashToolEntry) := []
  totalUsage : TotalUsage := ⟨0, 0, 0⟩
deriving DecidableEq, Repr

/-- One iteration body of the `for await` loop of `runSlashCommand`
(lines 292-456), yielding the translated canonical events. -/
def slashStep (st : SlashState) (c : SlashChunk) : SlashState × List LLMAgentEvent :=
  match c with
  | .text content =>
    (st, if strTruthy content then [.response { content := content }] else [])
  | .reasoning rc =>
    (st, if strTruthy rc then [.response { reasoning_content := rc }] else [])
  | .tool_call_start id name =>
    if strTruthy id ∧ strTruthy name then
      let entry : SlashToolEntry := { name := name.getD "", arguments_chunk := "" }
      ({ st with toolCallChunks := jsSet st.toolCallChunks (id.getD "") entry },
       [.response { tool_call := some .start, tool_call_id := id,
                    tool_call_name := name, tool_call_params := some "" }])
    else (st, [])
  | .tool_call_chunk id piece =>
    if strTruthy id ∧ strTruthy piece then
      match jsGet st.toolCallChunks (id.getD "") with
      | some entry =>
        let acc := entry.arguments_chunk ++ piece.getD ""
        let entry' : SlashToolEntry := { entry with arguments_chunk := acc }
        ({ st with toolCallChunks := jsSet st.toolCallChunks (id.getD "") entry' },
         [.response { tool_call := some .update, tool_call_id := id,
                      tool_call_name := some entry.name, tool_call_params := some acc }])
      | none => (st, [])
    else (st, [])
  | .tool_call_end id complete =>
    if strTruthy id then
      match jsGet st.toolCallChunks (id.getD "") with
      | some entry =>
        let params := complete.getD entry.arguments_chunk
        ({ st with toolCallChunks := jsDelete st.toolCallChunks (id.getD "") },
         [.response { tool_call := some .update, tool_call_id := id,
                      tool_call_name := some entry.name, tool_call_params := some params }])
      | none => (st, [])
    else (st, [])
  | .permission p =>
    let permissionType := p.permissionType.getD "read"
    let description := p.description.getD ""
    let toolName := p.tool_call_name.getD p.tool_call_id
    let serverName := ((p.server_name.or p.agentName).or p.providerName).getD ""
    (st,
     [.response { tool_call := some .permissionRequired,
                  tool_call_id := some p.tool_call_id,
                  tool_call_name := some toolName,
                  tool_call_params := p.tool_call_params,
                  tool_call_server_name := some serverName,
                  tool_call_server_icons := p.server_icons,
                  tool_call_server_description := p.server_description.or p.agentName,
                  tool_call_response := some description,
                  permission_request := some
                    { toolName := toolName, serverName := serverName,
                      permissionType := permissionType, description := description,
                      providerId := p.providerId, requestId := p.requestId,
                      sessionId := p.sessionId, agentId := p.agentId,
                      agentName := p.agentName, conversationId := p.conversationId,
                      options := p.options,
                      rememberable := !(p.metadataRememberable == some false) } }])
  | .usage u =>
    match u with
    | some u =>
      let tu : TotalUsage :=
        { prompt_tokens := st.totalUsage.prompt_tokens + u.prompt_tokens,
          completion_tokens := st.totalUsage.completion_tokens + u.completion_tokens,
          total_tokens := st.totalUsage.total_tokens + u.total_tokens }
      ({ st with totalUsage := tu }, [.response { totalUsage := some tu }])
    | none => (st, [])
  | .image_data img =>
    (st, if strTruthy img then [.response { image_data := img }] else [])
  | .rate_limit rl =>
    (st, if strTruthy rl then [.response { rate_limit := rl }] else [])
  | .error msg =>
    (st, [.evError (if strTruthy msg then msg.getD "" else "Provider stream error")])
  | .stop => (st, [])

/-- Whether the session's abort signal is set once `n` chunks have been
handled: the signal is a latch that trips after `k` iterations (or never). -/
def sigSet (abortAfter : Option Nat) (n : Nat) : Bool :=
  match abortAfter with
  | none => false
  | some k => k ≤ n

/-- The `for await` loop: the abort signal is read before each chunk is
handled and a set signal breaks out.  Returns the yielded events and the
number of chunks handled. -/
def runSlashLoop (st : SlashState) (chunks : List SlashChunk) (abortAfter : Option Nat)
    (n : Nat) : List LLMAgentEvent × Nat :=
  match chunks with
  | [] => ([], n)
  | c :: cs =>
    if sigSet abortAfter n then ([], n)
    else
      ((slashStep st c).2 ++ (runSlashLoop (slashStep st c).1 cs abortAfter (n + 1)).1,
       (runSlashLoop (slashStep st c).1 cs abortAfter (n + 1)).2)

/-- The observable outcome of one `runSlashCommand` session. -/
structure SlashRunResult where
  events : List LLMAgentEvent
  registry : List String
  exceptionPropagated : Bool
  abortObserved : Bool
deriving DecidableEq, Repr

/-- `runSlashCommand` end to end: register `eventId` in the active-stream
registry, consume the provider stream (which throws after its chunks when
`providerThrows`, unless the loop already broke on the abort signal), then
run the `finally` block — deregister and yield the terminal `end` event with
`userStop` read from the signal — on every exit path. -/
def runSlashCommandModel (chunks : List SlashChunk) (providerThrows : Bool)
    (abortAfter : Option Nat) (registry : List String) (eventId : String) :
    SlashRunResult :=
  let registry1 := jsSetKey registry eventId
  let r := runSlashLoop {} chunks abortAfter 0
  let userStop := sigSet abortAfter r.2
  { events := r.1 ++ [.evEnd userStop]
    registry := jsDeleteKey registry1 eventId
    exceptionPropagated := providerThrows && r.2 == chunks.length
    abortObserved := userStop }

/-! ## Helper lemmas -/

/-- `jsSet` followed by `jsGet` on the same key returns the new value. -/
theorem jsGet_jsSet_self {β : Type} (m : List (String × β)) (k : String) (v : β) :
    jsGet (jsSet m k v) k = some v := by
  induction m with
  | nil => simp [jsSet, jsGet]
  | cons hd tl ih =>
    by_cases h : hd.1 = k
    · simp [jsSet, jsGet, h]
    · simp [jsSet, jsGet, h, ih]

/-- The OpenAI handlers only ever record the literal `stop` reason (the
`end` case writes `'stop'` for both `userStop` values). -/
theorem runOpenAINonStream_stopReason (events : List LLMAgentEvent) :
    ∀ (st0 st : OpenAINonStreamState),
      (st0.stopReason = none ∨ st0.stopReason = some "stop") →
      runOpenAINonStream st0 events = .ok st →
      st.stopReason = none ∨ st.stopReason = some "stop" := by
  induction events with
  | nil =>
    intro st0 st h0 h
    simp only [runOpenAINonStream] at h
    cases h
    exact h0
  | cons e es ih =>
    intro st0 st h0 h
    cases e with
    | response d =>
      refine ih _ st ?_ h
      simpa [openAINonStreamStep] using h0
    | evEnd u =>
      refine ih _ st ?_ h
      right
      cases u <;> rfl
    | evError msg => simp [runOpenAINonStream] at h

/-- Splitting an Anthropic streaming run at a list append point. -/
theorem runAnthroStream_append (xs ys : List LLMAgentEvent) :
    ∀ st : AnthroStreamState,
      runAnthroStream st (xs ++ ys) =
        ((runAnthroStream (runAnthroStream st xs).1 ys).1,
         (runAnthroStream st xs).2 ++ (runAnthroStream (runAnthroStream st xs).1 ys).2) := by
  induction xs with
  | nil => intro st; simp [runAnthroStream]
  | cons e es ih =>
    intro st
    simp [runAnthroStream, ih]

/-- The Anthropic non-streaming loop throws the first error event's message
when no earlier event is an error. -/
theorem runAnthroNonStream_first_error (evs1 : List LLMAgentEvent) (msg : String)
    (evs2 : List LLMAgentEvent) :
    ∀ st : AnthroNonStreamState,
      (∀ m, LLMAgentEvent.evError m ∉ evs1) →
      runAnthroNonStream st (evs1 ++ .evError msg :: evs2) = .error msg := by
  induction evs1 with
  | nil => intro st _; simp [runAnthroNonStream]
  | cons e es ih =>
    intro st hno
    cases e with
    | response d =>
      simpa [runAnthroNonStream] using
        ih _ (fun m hm => hno m (List.mem_cons_of_mem _ hm))
    | evEnd u =>
      simpa [runAnthroNonStream] using
        ih _ (fun m hm => hno m (List.mem_cons_of_mem _ hm))
    | evError m => exact absurd (List.mem_cons_self _ _) (hno m)

/-- The OpenAI non-streaming loop throws the first error event's message
when no earlier event is an error. -/
theorem runOpenAINonStream_first_error (evs1 : List LLMAgentEvent) (msg : String)
    (evs2 : List LLMAgentEvent) :
    ∀ st : OpenAINonStreamState,
      (∀ m, LLMAgentEvent.evError m ∉ evs1) →
      runOpenAINonStream st (evs1 ++ .evError msg :: evs2) = .error msg := by
  induction evs1 with
  | nil => intro st _; simp [runOpenAINonStream]
  | cons e es ih =>
    intro st hno
    cases e with
    | response d =>
      simpa [runOpenAINonStream] using
        ih _ (fun m hm => hno m (List.mem_cons_of_mem _ hm))
    | evEnd u =>
      simpa [runOpenAINonStream] using
        ih _ (fun m hm => hno m (List.mem_cons_of_mem _ hm))
    | evError m => exact absurd (List.mem_cons_self _ _) (hno m)

/-- `slashStep` never yields a terminal `end` event. -/
theorem slashStep_no_end (st : SlashState) (c : SlashChunk) :
    ∀ e ∈ (slashStep st c).2, ∀ u, e ≠ .evEnd u := by
  intro e he u
  cases c <;> simp only [slashStep] at he <;> (repeat split at he) <;> simp_all

/-- The slash-command loop body yields no terminal `end` event. -/
theorem runSlashLoop_no_end (chunks : List SlashChunk) :
    ∀ (st : SlashState) (abortAfter : Option Nat) (n : Nat),
      ∀ e ∈ (runSlashLoop st chunks abortAfter n).1, ∀ u, e ≠ .evEnd u := by
  induction chunks with
  | nil => intro st abortAfter n e he; simp [runSlashLoop] at he
  | cons c cs ih =>
    intro st abortAfter n e he u
    simp only [runSlashLoop] at he
    split at he
    · simp at he
    · rcases List.mem_append.mp he with h | h
      · exact slashStep_no_end st c e h u
      · exact ih _ abortAfter (n + 1) e h u

/-- Membership in `jsSetKey`. -/
theorem mem_jsSetKey (l : List String) (k x : String) :
    x ∈ jsSetKey l k ↔ x ∈ l ∨ x = k := by
  induction l with
  | nil => simp [jsSetKey]
  | cons hd tl ih =>
    by_cases h : hd = k
    · subst h
      simp only [jsSetKey, if_pos, List.mem_cons]
      tauto
    · simp only [jsSetKey, if_neg h, List.mem_cons, ih]
      tauto

/-- `jsSetKey` preserves key uniqueness. -/
theorem jsSetKey_nodup (l : List String) (k : String) (h : l.Nodup) :
    (jsSetKey l k).Nodup := by
  induction l with
  | nil => simp [jsSetKey]
  | cons hd tl ih =>
    rcases List.nodup_cons.mp h with ⟨hhd, htl⟩
    by_cases hk : hd = k
    · subst hk
      simpa [jsSetKey] using h
    · simp only [jsSetKey, if_neg hk]
      refine List.nodup_cons.mpr ⟨?_, ih htl⟩
      rw [mem_jsSetKey]
      rintro (hmem | rfl)
      · exact hhd hmem
      · exact hk rfl

/-- Deleting a key from a duplicate-free registry removes it. -/
theorem not_mem_jsDeleteKey (l : List String) (k : String) (h : l.Nodup) :
    k ∉ jsDeleteKey l k := by
  induction l with
  | nil => simp [jsDeleteKey]
  | cons hd tl ih =>
    rcases List.nodup_cons.mp h with ⟨hhd, htl⟩
    by_cases hk : hd = k
    · subst hk
      simpa [jsDeleteKey] using hhd
    · simp only [jsDeleteKey, if_neg hk, List.mem_cons]
      rintro (rfl | hmem)
      · exact hk rfl
      · exact ih htl hmem

/-- Deleting one key leaves membership of every other key unchanged. -/
theorem mem_jsDeleteKey_ne (l : List String) (k x : String) (hx : x ≠ k) :
    x ∈ jsDeleteKey l k ↔ x ∈ l := by
  induction l with
  | nil => simp [jsDeleteKey]
  | cons hd tl ih =>
    by_cases hk : hd = k
    · subst hk
      simp only [jsDeleteKey, if_pos rfl, List.mem_cons]
      constructor
      · exact fun h => Or.inr h
      · rintro (rfl | h)
        · exact absurd rfl hx
        · exact h
    · simp only [jsDeleteKey, if_neg hk, List.mem_cons, ih]

/-! ## Claims -/

/-- C6: `mapStopReason` and `mapToOpenAIFinishReason` are pure total maps on
the canonical stop-reason taxonomy.  Anthropic: `complete`/`stop`/`end_turn`
↦ `end_turn`, `max_tokens`/`length` ↦ `max_tokens`,
`tool_use`/`tool_calls`/`function_call` ↦ `tool_use`, `stop_sequence` ↦
`stop_sequence`, any other non-empty value ↦ `end_turn`, unset ↦ `null`.
OpenAI: `tool_calls` whenever `hasToolCalls`, else `stop`/`length`/
`tool_calls` per the analogous table with default `stop`, and `null` exactly
for an unset reason with no tool calls. -/
theorem stopReason_tables :
    (mapStopReason none = none
      ∧ mapStopReason (some "complete") = some .end_turn
      ∧ mapStopReason (some "stop") = some .end_turn
      ∧ mapStopReason (some "end_turn") = some .end_turn
      ∧ mapStopReason (some "max_tokens") = some .max_tokens
      ∧ mapStopReason (some "length") = some .max_tokens
      ∧ mapStopReason (some "tool_use") = some .tool_use
      ∧ mapStopReason (some "tool_calls") = some .tool_use
      ∧ mapStopReason (some "function_call") = some .tool_use
      ∧ mapStopReason (some "stop_sequence") = some .stop_sequence)
    ∧ (∀ s : String, s ≠ "" →
        s ∉ (["complete", "stop", "end_turn", "max_tokens", "length", "tool_use",
              "tool_calls", "function_call", "stop_sequence"] : List String) →
        mapStopReason (some s) = some .end_turn)
    ∧ ((∀ r, mapToOpenAIFinishReason r true = some .tool_calls)
      ∧ mapToOpenAIFinishReason none false = none
      ∧ mapToOpenAIFinishReason (some "complete") false = some .stop
      ∧ mapToOpenAIFinishReason (some "stop") false = some .stop
      ∧ mapToOpenAIFinishReason (some "end_turn") false = some .stop
      ∧ mapToOpenAIFinishReason (some "max_tokens") false = some .length
      ∧ mapToOpenAIFinishReason (some "length") false = some .length
      ∧ mapToOpenAIFinishReason (some "tool_use") false = some .tool_calls
      ∧ mapToOpenAIFinishReason (some "tool_calls") false = some .tool_calls
      ∧ mapToOpenAIFinishReason (some "function_call") false = some .tool_calls)
    ∧ (∀ s : String, s ≠ "" →
        s ∉ (["complete", "stop", "end_turn", "max_tokens", "length", "tool_use",
              "tool_calls", "function_call", "stop_sequence"] : List String) →
        mapToOpenAIFinishReason (some s) false = some .stop)
    ∧ (∀ s : String, s ≠ "" → mapToOpenAIFinishReason (some s) false ≠ none) := by
  refine ⟨by decide, ?_, ⟨fun r => rfl, by decide⟩, ?_, ?_⟩
  · intro s hs hmem
    simp only [List.mem_cons, List.not_mem_nil, not_or, or_false] at hmem
    obtain ⟨h1, h2, h3, h4, h5, h6, h7, h8, h9⟩ := hmem
    simp [mapStopReason, hs, h1, h2, h3, h4, h5, h6, h7, h8, h9]
  · intro s hs hmem
    simp only [List.mem_cons, List.not_mem_nil, not_or, or_false] at hmem
    obtain ⟨h1, h2, h3, h4, h5, h6, h7, h8, _⟩ := hmem
    simp [mapToOpenAIFinishReason, hs, h1, h2, h3, h4, h5, h6, h7, h8]
  · intro s hs
    simp only [mapToOpenAIFinishReason]
    split_ifs <;> simp_all

/-- Witness for `stopReason_tables` at the non-taxonomy reason `other`. -/
theorem stopReason_tables_witness :
    ("other" ≠ ""
      ∧ "other" ∉ (["complete", "stop", "end_turn", "max_tokens", "length", "tool_use",
                    "tool_calls", "function_call", "stop_sequence"] : List String))
    ∧ mapStopReason (some "other") = some .end_turn
    ∧ mapToOpenAIFinishReason (some "other") false = some .stop := by
  refine ⟨⟨by decide, by decide⟩, ?_, ?_⟩
  · exact stopReason_tables.2.1 "other" (by decide) (by decide)
  · exact stopReason_tables.2.2.2.1 "other" (by decide) (by decide)

/-- C2: for a registered tool-call id, every `buildToolCallArgsChunk` call
forwards its fragment verbatim in exactly one delta chunk, with no buffering
and no JSON gating; the builder state is untouched, so two successive
fragments give two chunks, each carrying its own fragment. -/
theorem buildToolCallArgsChunk_forwards_verbatim
    (b : OpenAIStreamingBuilder) (toolId a1 a2 : String) (tc : OpenAIToolEntry)
    (h : jsGet b.currentToolCalls toolId = some tc) :
    b.buildToolCallArgsChunk toolId a1 = (b, [toolArgsDeltaItem b tc.index a1])
    ∧ (b.buildToolCallArgsChunk toolId a1).1.buildToolCallArgsChunk toolId a2 =
      (b, [toolArgsDeltaItem b tc.index a2]) := by
  constructor
  · simp [OpenAIStreamingBuilder.buildToolCallArgsChunk, h, toolArgsDeltaItem]
  · simp [OpenAIStreamingBuilder.buildToolCallArgsChunk, h, toolArgsDeltaItem]

/-- Witness for `buildToolCallArgsChunk_forwards_verbatim`: after one
registered start, the fragments `x` and `y` each come back verbatim. -/
theorem buildToolCallArgsChunk_forwards_verbatim_witness :
    jsGet (((OpenAIStreamingBuilder.new "cid" "m" 0).buildToolCallStartChunk
        "t1" "f").1).currentToolCalls "t1" = some ⟨0, "f", ""⟩
    ∧ (((OpenAIStreamingBuilder.new "cid" "m" 0).buildToolCallStartChunk
        "t1" "f").1).buildToolCallArgsChunk "t1" "x" =
      (((OpenAIStreamingBuilder.new "cid" "m" 0).buildToolCallStartChunk "t1" "f").1,
       [toolArgsDeltaItem
          (((OpenAIStreamingBuilder.new "cid" "m" 0).buildToolCallStartChunk "t1" "f").1)
          0 "x"]) := by
  refine ⟨by decide, ?_⟩
  exact (buildToolCallArgsChunk_forwards_verbatim
    (((OpenAIStreamingBuilder.new "cid" "m" 0).buildToolCallStartChunk "t1" "f").1)
    "t1" "x" "y" ⟨0, "f", ""⟩ (by decide)).1

/-- C1: for a registered tool-call id, `handleToolCallChunk` appends the
fragment to the id's accumulated buffer and emits an `input_json_delta`
event carrying the entire accumulated buffer exactly when the buffer is
valid parseable JSON, emitting nothing otherwise; in particular the
fragments `\x7b"a":` then `1\x7d` yield zero deltas after the first and
exactly one delta carrying `\x7b"a":1\x7d` after the second. -/
theorem handleToolCallChunk_json_gating :
    (∀ (b : StreamingResponseBuilder) (toolId chunk : String) (tc : ToolCallEntry),
      jsGet b.currentToolCalls toolId = some tc →
      jsGet (b.handleToolCallChunk toolId chunk).1.currentToolCalls toolId =
        some { tc with argsBuffer := tc.argsBuffer ++ chunk }
      ∧ ((b.handleToolCallChunk toolId chunk).2 =
          [buildInputJsonDeltaEvent tc.index (tc.argsBuffer ++ chunk)]
            ↔ jsonValid (tc.argsBuffer ++ chunk) = true)
      ∧ ((b.handleToolCallChunk toolId chunk).2 = []
            ↔ jsonValid (tc.argsBuffer ++ chunk) = false))
    ∧ ((((StreamingResponseBuilder.new "msg" "m").handleToolCallStart
          "t1" "tool").1.handleToolCallChunk "t1" "\x7b\"a\":").2 = []
       ∧ (((((StreamingResponseBuilder.new "msg" "m").handleToolCallStart
          "t1" "tool").1.handleToolCallChunk "t1" "\x7b\"a\":").1.handleToolCallChunk
          "t1" "1\x7d").2 = [buildInputJsonDeltaEvent 1 "\x7b\"a\":1\x7d"])) := by
  constructor
  · intro b toolId chunk tc h
    refine ⟨?_, ?_, ?_⟩
    · by_cases hv : jsonValid (tc.argsBuffer ++ chunk)
      · simp [StreamingResponseBuilder.handleToolCallChunk, h, hv, jsGet_jsSet_self]
      · simp [StreamingResponseBuilder.handleToolCallChunk, h, hv, jsGet_jsSet_self]
    · by_cases hv : jsonValid (tc.argsBuffer ++ chunk)
      · simp [StreamingResponseBuilder.handleToolCallChunk, h, hv]
      · simp [StreamingResponseBuilder.handleToolCallChunk, h, hv]
    · by_cases hv : jsonValid (tc.argsBuffer ++ chunk)
      · simp [StreamingResponseBuilder.handleToolCallChunk, h, hv]
      · simp [StreamingResponseBuilder.handleToolCallChunk, h, hv]
  · constructor
    · decide
    · decide

/-- Witness for `handleToolCallChunk_json_gating` at the registered id of a
fresh builder with the fragment `1`. -/
theorem handleToolCallChunk_json_gating_witness :
    jsGet (((StreamingResponseBuilder.new "msg" "m").handleToolCallStart
        "t1" "tool").1).currentToolCalls "t1" = some ⟨1, "tool", "", true⟩
    ∧ ((((StreamingResponseBuilder.new "msg" "m").handleToolCallStart
        "t1" "tool").1.handleToolCallChunk "t1" "1").2 =
          [buildInputJsonDeltaEvent 1 "1"]
        ↔ jsonValid "1" = true) := by
  refine ⟨by decide, ?_⟩
  exact ((handleToolCallChunk_json_gating.1
    (((StreamingResponseBuilder.new "msg" "m").handleToolCallStart "t1" "tool").1)
    "t1" "1" ⟨1, "tool", "", true⟩ (by decide)).2).1

/-- C3 (counterexample): on `a/b/c` — a model string with two slashes — the
code's `split('/', 2)` keeps only the first two pieces of the full split and
yields `(a, b)`, while splitting on the first occurrence as the claim states
(`mapClaudeModelSpec`) yields `(a, b/c)`. -/
theorem mapClaudeModel_split_counterexample :
    mapClaudeModel "a/b/c" none none = some ("a", "b")
    ∧ mapClaudeModelSpec "a/b/c" none none = some ("a", "b/c")
    ∧ mapClaudeModel "a/b/c" none none ≠ mapClaudeModelSpec "a/b/c" none none := by
  exact ⟨by decide, by decide, by decide⟩

/-- C3 (amended): `mapClaudeModel` resolves with first-match-wins
precedence: (1) both configured defaults win unconditionally; (2) else a
model string containing `/` resolves to the first two pieces of the full
slash split — discarding anything after a second slash — when both are
non-empty; (3) else likewise for `,` with both pieces trimmed; (4) else the
static Claude-model table; (5) else a configured default provider id paired
with the literal model string; (6) else no mapping. -/
theorem mapClaudeModel_precedence :
    (∀ (model p m : String), p ≠ "" → m ≠ "" →
      mapClaudeModel model (some p) (some m) = some (p, m))
    ∧ (∀ (dp dm : Option String) (model p m : String),
      (strTruthy dp && strTruthy dm) = false →
      hasChar '/' model = true →
      jsSplitLimit2 '/' model = [p, m] → p ≠ "" → m ≠ "" →
      mapClaudeModel model dp dm = some (p, m))
    ∧ (∀ (dp dm : Option String) (model p m : String),
      (strTruthy dp && strTruthy dm) = false →
      hasChar '/' model = false →
      hasChar ',' model = true →
      jsSplitLimit2 ',' model = [p, m] → p ≠ "" → m ≠ "" →
      mapClaudeModel model dp dm = some (jsTrim p, jsTrim m))
    ∧ (∀ (dp dm : Option String) (model : String) (r : String × String),
      (strTruthy dp && strTruthy dm) = false →
      hasChar '/' model = false → hasChar ',' model = false →
      claudeModelMappings model = some r →
      mapClaudeModel model dp dm = some r)
    ∧ (∀ (p : String) (dm : Option String) (model : String),
      p ≠ "" → strTruthy dm = false →
      hasChar '/' model = false → hasChar ',' model = false →
      claudeModelMappings model = none →
      mapClaudeModel model (some p) dm = some (p, model))
    ∧ (∀ (dp dm : Option String) (model : String),
      strTruthy dp = false →
      hasChar '/' model = false → hasChar ',' model = false →
      claudeModelMappings model = none →
      mapClaudeModel model dp dm = none) := by
  refine ⟨?_, ?_, ?_, ?_, ?_, ?_⟩
  · intro model p m hp hm
    simp [mapClaudeModel, strTruthy, hp, hm]
  · intro dp dm model p m hboth hslash hsplit hp hm
    simp [mapClaudeModel, hboth, hslash, hsplit, hp, hm]
  · intro dp dm model p m hboth hslash hcomma hsplit hp hm
    simp [mapClaudeModel, hboth, hslash, hcomma, hsplit, hp, hm]
  · intro dp dm model r hboth hslash hcomma htable
    simp [mapClaudeModel, hboth, hslash, hcomma, htable]
  · intro p dm model hp hdm hslash hcomma htable
    have hp' : strTruthy (some p) = true := by simp [strTruthy, hp]
    simp [mapClaudeModel, hp', hdm, hslash, hcomma, htable, hp]
  · intro dp dm model hdp hslash hcomma htable
    simp [mapClaudeModel, hdp, hslash, hcomma, htable]

/-- Witness for `mapClaudeModel_precedence`: configured defaults beat a
slash-delimited string, and the comma syntax resolves with trimming. -/
theorem mapClaudeModel_precedence_witness :
    mapClaudeModel "other/thing" (some "p") (some "m") = some ("p", "m")
    ∧ mapClaudeModel "acme,gpt" none none = some (jsTrim "acme", jsTrim "gpt") := by
  constructor
  · exact mapClaudeModel_precedence.1 "other/thing" "p" "m" (by decide) (by decide)
  · exact mapClaudeModel_precedence.2.2.1 none none "acme,gpt" "acme" "gpt"
      (by decide) (by decide) (by decide) (by decide) (by decide) (by decide)

/-- C4 (counterexample): a `/v1/messages` request whose `messages` is an
empty array — not a non-empty array — passes validation: with a routable
model and an existing provider the gateway proceeds to open a session
instead of responding 400. -/
theorem empty_messages_array_accepted :
    handleMessagesDecision (fun _ => true) none none
      { model := some "p/m", messages := some (.arr 0), max_tokens := some 100,
        stream := false } = .proceedNonStreaming "p" "m"
    ∧ validateClaudeRequest
      { model := some "p/m", messages := some (.arr 0), max_tokens := some 100,
        stream := false } = none := by
  exact ⟨by decide, by decide⟩

/-- C4 (amended): a `/v1/messages` request with a falsy `model`, an absent or
non-array `messages` (array emptiness is not checked), or a falsy
`max_tokens`, and a `/v1/chat/completions` request with a falsy `model` or an
absent or non-array `messages`, is answered 400 with an
`invalid_request_error` envelope in the endpoint's wire format; the handler
never reaches the streaming upgrade or session start. -/
theorem required_field_validation :
    (∀ (pe : String → Bool) (dp dm : Option String) (r : ClaudeMessagesRequestModel),
      (strTruthy r.model = false ∨ r.messages = none ∨ r.messages = some .nonArray
        ∨ natTruthy r.max_tokens = false) →
      ∃ msg, handleMessagesDecision pe dp dm r =
        .respondError 400 (.anthropic "invalid_request_error" msg))
    ∧ (∀ (pe : String → Bool) (dp dm : Option String)
        (r : OpenAIChatCompletionsRequestModel),
      (strTruthy r.model = false ∨ r.messages = none ∨ r.messages = some .nonArray) →
      ∃ msg, handleChatCompletionsDecision pe dp dm r =
        .respondError 400 (.openai msg "invalid_request_error")) := by
  constructor
  · intro pe dp dm r hbad
    by_cases hm : strTruthy r.model
    · rcases hbad with h | h | h | h
      · exact absurd hm (by simp [h])
      · exact ⟨"Missing required field: messages",
          by simp [handleMessagesDecision, validateClaudeRequest, hm, h]⟩
      · exact ⟨"Missing required field: messages",
          by simp [handleMessagesDecision, validateClaudeRequest, hm, h]⟩
      · rcases hmsg : r.messages with _ | mf
        · exact ⟨"Missing required field: messages",
            by simp [handleMessagesDecision, validateClaudeRequest, hm, hmsg]⟩
        · rcases mf with n | _
          · exact ⟨"Missing required field: max_tokens",
              by simp [handleMessagesDecision, validateClaudeRequest, hm, hmsg, h]⟩
          · exact ⟨"Missing required field: messages",
              by simp [handleMessagesDecision, validateClaudeRequest, hm, hmsg]⟩
    · exact ⟨"Missing required field: model",
        by simp [handleMessagesDecision, validateClaudeRequest, hm]⟩
  · intro pe dp dm r hbad
    by_cases hm : strTruthy r.model
    · rcases hbad with h | h | h
      · exact absurd hm (by simp [h])
      · exact ⟨"Missing required field: messages",
          by simp [handleChatCompletionsDecision, validateOpenAIRequest, hm, h]⟩
      · exact ⟨"Missing required field: messages",
          by simp [handleChatCompletionsDecision, validateOpenAIRequest, hm, h]⟩
    · exact ⟨"Missing required field: model",
        by simp [handleChatCompletionsDecision, validateOpenAIRequest, hm]⟩

/-- Witness for `required_field_validation`: a messages-request missing
`max_tokens` and a chat-completions request with a non-array `messages`. -/
theorem required_field_validation_witness :
    (∃ msg, handleMessagesDecision (fun _ => true) none none
      { model := some "p/m", messages := some (.arr 1), max_tokens := none,
        stream := true } = .respondError 400 (.anthropic "invalid_request_error" msg))
    ∧ (∃ msg, handleChatCompletionsDecision (fun _ => true) none none
      { model := some "p/m", messages := some .nonArray, stream := true } =
        .respondError 400 (.openai msg "invalid_request_error")) := by
  constructor
  · exact required_field_validation.1 (fun _ => true) none none
      { model := some "p/m", messages := some (.arr 1), max_tokens := none,
        stream := true } (by simp [natTruthy])
  · exact required_field_validation.2 (fun _ => true) none none
      { model := some "p/m", messages := some .nonArray, stream := true }
      (by simp)

/-- C9: every Anthropic non-streaming completion has non-empty content: when
text or reasoning content accumulated, the content is one text block with
the concatenation followed by one `tool_use` block per started tool call in
first-start order; when the provider emitted neither text nor tool calls it
is exactly one empty text block. -/
theorem nonstreaming_content_shape (model : String) (events : List LLMAgentEvent)
    (st : AnthroNonStreamState) (h : runAnthroNonStream {} events = .ok st) :
    ∃ resp, handleNonStreamingResponseModel model events = .ok resp
      ∧ resp.content ≠ []
      ∧ (st.textContent ≠ "" →
          resp.content = ContentBlock.text st.textContent ::
            st.toolCalls.map (fun p => ContentBlock.tool_use p.1 p.2.name p.2.input))
      ∧ (st.textContent = "" → st.toolCalls = [] →
          resp.content = [ContentBlock.text ""]) := by
  refine ⟨{ model := model, content := buildNonStreamContent st,
            stop_reason :=
              if st.toolCalls.isEmpty then mapStopReason (some st.stopReason)
              else some ClaudeStopReason.tool_use,
            usage := ⟨st.inputTokens, st.outputTokens⟩ },
          by simp only [handleNonStreamingResponseModel, h], ?_, ?_, ?_⟩
  · simp only [buildNonStreamContent]
    split_ifs <;> simp_all
  · intro ht
    simp [buildNonStreamContent, ht]
  · intro ht htc
    simp [buildNonStreamContent, ht, htc]

/-- Witness for `nonstreaming_content_shape`: an empty provider stream gives
exactly one empty text block. -/
theorem nonstreaming_content_shape_witness :
    ∃ resp, handleNonStreamingResponseModel "m" [] = .ok resp
      ∧ resp.content = [ContentBlock.text ""] := by
  obtain ⟨resp, h1, _, _, h4⟩ := nonstreaming_content_shape "m" [] {} rfl
  exact ⟨resp, h1, h4 rfl rfl⟩

/-- C5 (counterexample): in an OpenAI non-streaming session whose provider
starts a tool call but never sends an argument update, a tool call is
registered (the start created its buffer) yet the finish reason is `stop`,
not `tool_calls` — the handler consults the pushed-updates list, not the
registered starts. -/
theorem openai_nonstream_started_tool_not_tool_calls :
    runOpenAINonStream {}
      [.response { tool_call := some .start, tool_call_id := some "t1",
                   tool_call_name := some "f" },
       .evEnd false] =
      .ok { textContent := "", toolCalls := [],
            toolCallBuffers := [("t1", { name := "f", args := "" })],
            inputTokens := 0, outputTokens := 0, stopReason := some "stop" }
    ∧ handleOpenAINonStreamingResponseModel "m"
      [.response { tool_call := some .start, tool_call_id := some "t1",
                   tool_call_name := some "f" },
       .evEnd false] =
      .ok { model := "m", content := none, tool_calls := none,
            finish_reason := some .stop, usage := ⟨0, 0, 0⟩ }
    ∧ (some OpenAIFinishReason.stop ≠ some OpenAIFinishReason.tool_calls) := by
  exact ⟨rfl, rfl, by decide⟩

/-- C5 (amended): the Anthropic streaming finalization closes the text block,
closes every open tool block in registration order, then emits one message
delta with the effective stop reason and accumulated usage and one message
stop; for Anthropic streaming, Anthropic non-streaming and OpenAI streaming
the effective reason is the tool-use reason whenever a tool call was
registered via a start, regardless of the provider-reported reason; for
OpenAI non-streaming it is `tool_calls` exactly when at least one argument
update was recorded for a started call. -/
theorem final_events_and_tool_use_precedence :
    (∀ b : StreamingResponseBuilder, ∃ r : ClaudeStopReason,
      b.getFinalEvents =
        buildContentBlockStopEvent b.textBlockIndex ::
          (b.currentToolCalls.map (fun p => buildContentBlockStopEvent p.2.index)
            ++ [buildMessageDeltaEvent (some r) b.usage, buildMessageStopEvent])
      ∧ (b.currentToolCalls ≠ [] → r = .tool_use)
      ∧ (b.currentToolCalls = [] → r = b.stopReason.getD .end_turn))
    ∧ (∀ (model : String) (events : List LLMAgentEvent) (st : AnthroNonStreamState),
      runAnthroNonStream {} events = .ok st → st.toolCalls ≠ [] →
      ∃ resp, handleNonStreamingResponseModel model events = .ok resp
        ∧ resp.stop_reason = some .tool_use)
    ∧ (∀ (cid m : String) (cr : Nat) (events : List LLMAgentEvent),
      ((runOpenAIStream
          { builder := OpenAIStreamingBuilder.new cid m cr, inputTokens := 0,
            outputTokens := 0, stopReason := none } events).1).builder.hasToolCalls = true →
      ∃ (pre : List OpenAISSEItem) (bF : OpenAIStreamingBuilder),
        handleOpenAIStreamingResponseModel cid m cr events =
          pre ++ bF.buildFinalChunk (some .tool_calls) ++ [OpenAISSEItem.done])
    ∧ (∀ (model : String) (events : List LLMAgentEvent) (st : OpenAINonStreamState),
      runOpenAINonStream {} events = .ok st →
      ∃ resp, handleOpenAINonStreamingResponseModel model events = .ok resp
        ∧ (resp.finish_reason = some .tool_calls ↔ st.toolCalls ≠ [])) := by
  refine ⟨?_, ?_, ?_, ?_⟩
  · intro b
    by_cases h : b.currentToolCalls.isEmpty
    · refine ⟨b.stopReason.getD .end_turn, ?_, ?_, fun _ => rfl⟩
      · simp [StreamingResponseBuilder.getFinalEvents, h]
      · intro hne
        exact absurd (List.isEmpty_iff.mp h) hne
    · refine ⟨.tool_use, ?_, fun _ => rfl, ?_⟩
      · simp [StreamingResponseBuilder.getFinalEvents, h]
      · intro he
        rw [he] at h
        simp at h
  · intro model events st h htc
    have hempty : st.toolCalls.isEmpty = false := by
      cases hc : st.toolCalls
      · exact absurd hc htc
      · simp [hc]
    have hres : handleNonStreamingResponseModel model events =
        .ok { model := model, content := buildNonStreamContent st,
              stop_reason := some .tool_use,
              usage := ⟨st.inputTokens, st.outputTokens⟩ } := by
      simp [handleNonStreamingResponseModel, h, hempty]
    exact ⟨_, hres, rfl⟩
  · intro cid m cr events h
    set r := runOpenAIStream
      { builder := OpenAIStreamingBuilder.new cid m cr, inputTokens := 0,
        outputTokens := 0, stopReason := none } events with hr
    refine ⟨(OpenAIStreamingBuilder.new cid m cr).buildInitialChunk ++ r.2,
            r.1.builder.setUsage r.1.inputTokens r.1.outputTokens, ?_⟩
    have h' : (r.1.builder.setUsage r.1.inputTokens r.1.outputTokens).hasToolCalls = true := h
    simp only [handleOpenAIStreamingResponseModel, ← hr, h']
    simp [mapToOpenAIFinishReason, OpenAIStreamingBuilder.buildDone, List.append_assoc]
  · intro model events st h
    have hres : handleOpenAINonStreamingResponseModel model events =
        .ok { model := model,
              content := if st.textContent = "" then none else some st.textContent,
              tool_calls := if st.toolCalls.isEmpty then none else some st.toolCalls,
              finish_reason := mapToOpenAIFinishReason st.stopReason (!st.toolCalls.isEmpty),
              usage := ⟨st.inputTokens, st.outputTokens,
                        st.inputTokens + st.outputTokens⟩ } := by
      simp only [handleOpenAINonStreamingResponseModel, h]
    refine ⟨_, hres, ?_⟩
    rcases runOpenAINonStream_stopReason events {} st (Or.inl rfl) h with hsr | hsr <;>
      · by_cases htc : st.toolCalls.isEmpty
        · simp [hsr, htc, mapToOpenAIFinishReason, List.isEmpty_iff.mp htc]
        · have hne : st.toolCalls ≠ [] := fun he => by
            rw [he] at htc
            simp at htc
          simp [hsr, htc, mapToOpenAIFinishReason, hne]

/-- Witness for `final_events_and_tool_use_precedence`: a builder with one
registered tool call finalizes with the `tool_use` reason, and an OpenAI
non-streaming session with one recorded update finishes `tool_calls`. -/
theorem final_events_and_tool_use_precedence_witness :
    (∃ r : ClaudeStopReason,
      (((StreamingResponseBuilder.new "msg" "m").handleToolCallStart
          "t1" "f").1.setStopReason "end_turn").getFinalEvents =
        buildContentBlockStopEvent 0 ::
          ([buildContentBlockStopEvent 1]
            ++ [buildMessageDeltaEvent (some r) ⟨0, 0⟩, buildMessageStopEvent])
      ∧ r = .tool_use)
    ∧ (∃ resp, handleOpenAINonStreamingResponseModel "m"
        [.response { tool_call := some .start, tool_call_id := some "t1",
                     tool_call_name := some "f" },
         .response { tool_call := some .update, tool_call_id := some "t1",
                     tool_call_params := some "\x7b\x7d" },
         .evEnd false] = .ok resp
        ∧ resp.finish_reason = some .tool_calls) := by
  constructor
  · obtain ⟨r, h1, h2, _⟩ := final_events_and_tool_use_precedence.1
      (((StreamingResponseBuilder.new "msg" "m").handleToolCallStart
          "t1" "f").1.setStopReason "end_turn")
    exact ⟨r, h1, h2 (by decide)⟩
  · obtain ⟨resp, h1, h2⟩ := final_events_and_tool_use_precedence.2.2.2 "m"
      [.response { tool_call := some .start, tool_call_id := some "t1",
                   tool_call_name := some "f" },
       .response { tool_call := some .update, tool_call_id := some "t1",
                   tool_call_params := some "\x7b\x7d" },
       .evEnd false]
      { textContent := "", toolCalls := [{ id := "t1", name := "f", arguments := "\x7b\x7d" }],
        toolCallBuffers := [("t1", { name := "f", args := "\x7b\x7d" })],
        inputTokens := 0, outputTokens := 0, stopReason := some "stop" } rfl
    exact ⟨resp, h1, h2.mpr (by decide)⟩

/-- C8 (counterexample): an OpenAI streaming session receiving a mid-stream
provider error writes exactly what an error-free empty session writes —
initial chunk, final chunk, `[DONE]` — with no in-band error event of any
kind; the error is only logged. -/
theorem openai_streaming_error_dropped :
    handleOpenAIStreamingResponseModel "cid" "m" 0 [.evError "boom"] =
      handleOpenAIStreamingResponseModel "cid" "m" 0 []
    ∧ handleOpenAIStreamingResponseModel "cid" "m" 0 [.evError "boom"] =
      (OpenAIStreamingBuilder.new "cid" "m" 0).buildInitialChunk
        ++ (OpenAIStreamingBuilder.new "cid" "m" 0).buildFinalChunk none
        ++ [OpenAISSEItem.done] := by
  exact ⟨rfl, rfl⟩

/-- C8 (amended): a mid-stream provider error is written as an in-band error
event on the open Anthropic stream; the OpenAI streaming loop drops it
(nothing is written in-band and the loop continues); a non-streaming request
of either variant converts the first such error into an HTTP 500 response in
the endpoint's error-envelope format. -/
theorem midstream_error_handling :
    (∀ (mid m : String) (evs1 : List LLMAgentEvent) (msg : String)
        (evs2 : List LLMAgentEvent),
      ∃ rest, handleStreamingResponseModel mid m (evs1 ++ .evError msg :: evs2) =
        (StreamingResponseBuilder.new mid m).getInitialEvents
          ++ (runAnthroStream
                { builder := StreamingResponseBuilder.new mid m, inputTokens := 0,
                  outputTokens := 0 } evs1).2
          ++ buildErrorEvent "api_error" msg :: rest)
    ∧ (∀ (st : OpenAIStreamState) (msg : String),
        openAIStreamStep st (.evError msg) = (st, []))
    ∧ (∀ (model : String) (evs1 : List LLMAgentEvent) (msg : String)
        (evs2 : List LLMAgentEvent),
      (∀ m', LLMAgentEvent.evError m' ∉ evs1) →
      handleNonStreamingResponseModel model (evs1 ++ .evError msg :: evs2) =
        .error (500, .anthropic "api_error" msg))
    ∧ (∀ (model : String) (evs1 : List LLMAgentEvent) (msg : String)
        (evs2 : List LLMAgentEvent),
      (∀ m', LLMAgentEvent.evError m' ∉ evs1) →
      handleOpenAINonStreamingResponseModel model (evs1 ++ .evError msg :: evs2) =
        .error (500, .openai msg "api_error")) := by
  refine ⟨?_, fun st msg => rfl, ?_, ?_⟩
  · intro mid m evs1 msg evs2
    set s0 : AnthroStreamState :=
      { builder := StreamingResponseBuilder.new mid m, inputTokens := 0,
        outputTokens := 0 } with hs0
    set sMid := (runAnthroStream s0 evs1).1 with hsMid
    set sEnd := (runAnthroStream sMid evs2).1 with hsEnd
    refine ⟨(runAnthroStream sMid evs2).2
      ++ (sEnd.builder.setUsage sEnd.inputTokens sEnd.outputTokens).getFinalEvents, ?_⟩
    simp only [handleStreamingResponseModel, runAnthroStream_append, runAnthroStream,
      anthroStreamStep, StreamingResponseBuilder.getErrorEvent, ← hs0, ← hsMid, ← hsEnd,
      List.append_assoc, List.cons_append, List.nil_append]
  · intro model evs1 msg evs2 hno
    simp only [handleNonStreamingResponseModel,
      runAnthroNonStream_first_error evs1 msg evs2 _ hno]
  · intro model evs1 msg evs2 hno
    simp only [handleOpenAINonStreamingResponseModel,
      runOpenAINonStream_first_error evs1 msg evs2 _ hno]

/-- Witness for `midstream_error_handling`: a lone provider error yields the
500 envelope on both non-streaming endpoints. -/
theorem midstream_error_handling_witness :
    handleNonStreamingResponseModel "m" [.evError "boom"] =
      .error (500, .anthropic "api_error" "boom")
    ∧ handleOpenAINonStreamingResponseModel "m" [.evError "boom"] =
      .error (500, .openai "boom" "api_error") := by
  constructor
  · simpa using midstream_error_handling.2.2.1 "m" [] "boom" [] (by simp)
  · simpa using midstream_error_handling.2.2.2 "m" [] "boom" [] (by simp)

/-- C7: on every exit path of the `runSlashCommand` session loop — stream
exhaustion, a break on the observed abort signal, or an uncaught provider
failure — the session's `eventId` is removed from the active-stream registry
(exactly once: it is absent afterwards and no other key's membership
changes), and exactly one terminal `end` event is emitted as the last event,
with `userStop` true exactly when the abort signal was set. -/
theorem runSlashCommand_cleanup (chunks : List SlashChunk) (providerThrows : Bool)
    (abortAfter : Option Nat) (registry : List String) (eventId : String)
    (hnd : registry.Nodup) :
    ((runSlashCommandModel chunks providerThrows abortAfter registry eventId).events =
      (runSlashLoop {} chunks abortAfter 0).1
        ++ [.evEnd (runSlashCommandModel chunks providerThrows abortAfter registry
              eventId).abortObserved])
    ∧ (∀ e ∈ (runSlashLoop {} chunks abortAfter 0).1, ∀ u, e ≠ .evEnd u)
    ∧ eventId ∉
        (runSlashCommandModel chunks providerThrows abortAfter registry eventId).registry
    ∧ (∀ k, k ≠ eventId →
        (k ∈ (runSlashCommandModel chunks providerThrows abortAfter registry
                eventId).registry
          ↔ k ∈ registry))
    ∧ (runSlashCommandModel chunks providerThrows abortAfter registry
        eventId).abortObserved =
      sigSet abortAfter (runSlashLoop {} chunks abortAfter 0).2 := by
  refine ⟨rfl, runSlashLoop_no_end chunks {} abortAfter 0, ?_, ?_, rfl⟩
  · exact not_mem_jsDeleteKey _ _ (jsSetKey_nodup registry eventId hnd)
  · intro k hk
    rw [show (runSlashCommandModel chunks providerThrows abortAfter registry
          eventId).registry = jsDeleteKey (jsSetKey registry eventId) eventId from rfl,
        mem_jsDeleteKey_ne _ _ _ hk, mem_jsSetKey]
    simp [hk]

/-- Witness for `runSlashCommand_cleanup`: a one-chunk session on the
registry `[a]` with a fresh event id `e`: `e` is gone afterwards, `a`
survives, and the session ends with a single non-user-stop `end` event. -/
theorem runSlashCommand_cleanup_witness :
    "e" ∉ (runSlashCommandModel [SlashChunk.text (some "hi")] false none ["a"] "e").registry
    ∧ ("a" ∈ (runSlashCommandModel [SlashChunk.text (some "hi")] false none
        ["a"] "e").registry ↔ "a" ∈ ["a"])
    ∧ (runSlashCommandModel [SlashChunk.text (some "hi")] false none ["a"] "e").events =
      (runSlashLoop {} [SlashChunk.text (some "hi")] none 0).1 ++ [.evEnd false] := by
  obtain ⟨h1, _, h3, h4, _⟩ := runSlashCommand_cleanup [SlashChunk.text (some "hi")]
    false none ["a"] "e" (by simp)
  exact ⟨h3, h4 "a" (by decide), h1⟩

/-- C10: a tool-argument update for an id never registered via a start is a
no-op in all three aggregators: the Anthropic streaming encoder, the OpenAI
streaming encoder, and the Anthropic non-streaming handler all leave their
state unchanged and emit nothing. -/
theorem unknown_tool_id_noop :
    (∀ (b : StreamingResponseBuilder) (toolId chunk : String),
      jsGet b.currentToolCalls toolId = none →
      b.handleToolCallChunk toolId chunk = (b, []))
    ∧ (∀ (b : OpenAIStreamingBuilder) (toolId args : String),
      jsGet b.currentToolCalls toolId = none →
      b.buildToolCallArgsChunk toolId args = (b, []))
    ∧ (∀ (st : AnthroNonStreamState) (toolId params : String),
      jsGet st.toolCalls toolId = none →
      anthroNonStreamStep st
        { tool_call := some .update, tool_call_id := some toolId,
          tool_call_params := some params } = st) := by
  refine ⟨?_, ?_, ?_⟩
  · intro b toolId chunk h
    simp [StreamingResponseBuilder.handleToolCallChunk, h]
  · intro b toolId args h
    simp [OpenAIStreamingBuilder.buildToolCallArgsChunk, h]
  · intro st toolId params h
    simp only [anthroNonStreamStep, strTruthy]
    by_cases hid : toolId = ""
    · simp [hid, strTruthy]
    · by_cases hp : params = ""
      · simp [hid, hp, strTruthy]
      · simp [hid, hp, strTruthy, h]

/-- Witness for `unknown_tool_id_noop` on fresh builders and state. -/
theorem unknown_tool_id_noop_witness :
    (StreamingResponseBuilder.new "msg" "m").handleToolCallChunk "t9" "x" =
      (StreamingResponseBuilder.new "msg" "m", [])
    ∧ (OpenAIStreamingBuilder.new "cid" "m" 0).buildToolCallArgsChunk "t9" "x" =
      (OpenAIStreamingBuilder.new "cid" "m" 0, [])
    ∧ anthroNonStreamStep {}
        { tool_call := some .update, tool_call_id := some "t9",
          tool_call_params := some "x" } = {} := by
  refine ⟨?_, ?_, ?_⟩
  · exact unknown_tool_id_noop.1 (StreamingResponseBuilder.new "msg" "m") "t9" "x" (by decide)
  · exact unknown_tool_id_noop.2.1 (OpenAIStreamingBuilder.new "cid" "m" 0) "t9" "x" (by decide)
  · exact unknown_tool_id_noop.2.2 {} "t9" "x" (by decide)

end DeepChat
